import Mathlib

/-!
# Papertrail routing and signature engine — verification development

Shallow embedding of the package routing engine
(`apps/packages/services/routing.py`), the action executor
(`apps/packages/services/actions.py`) and the signature service
(`apps/packages/services/signatures.py`) of the Papertrail repository,
together with proofs of the frozen specification claims.

Modelling conventions:
* Django model rows become Lean structures; the mutable database state touched
  by the routing engine (one package plus its rows and the global membership
  table) becomes the explicit record `PackageState`.
* Timestamps (`submitted_at`, `completed_at`) are modelled as Booleans that
  record whether the stamp happened.
* Python exceptions (`RoutingError`, `SignatureError`) become `Except String`,
  carrying the exact message the source raises; since every error in the
  source is raised inside `transaction.atomic` before or instead of any write,
  the error branches return no state (the caller keeps the old one).
* The unbounded recursion of `_execute_action_nodes_from` is modelled with an
  explicit fuel parameter; fuel `0` returns the state unchanged, and every
  theorem about chaining supplies enough fuel for the graph at hand.
* Notification fan-out is external to the engine (spec §6); we record the
  notification calls the engine makes as an event log.  `send_alert` is
  modelled with its default configuration (recipients = originator);
  `send_email`, `wait` and `webhook` have no routing-visible effect.
-/

namespace Papertrail

/-- `Package.Status` text choices. -/
inductive Status where
  | draft
  | in_routing
  | completed
  | cancelled
  | on_hold
  | archived
deriving DecidableEq

/-- `StageNode.MultiOfficeRule` text choices. -/
inductive MultiOfficeRule where
  | any
  | all
deriving DecidableEq

/-- `RoutingHistory.TransitionType` text choices (`ret` models `"return"`). -/
inductive TransitionType where
  | submit
  | advance
  | ret
  | reject
  | complete
deriving DecidableEq

/-- A `StageNode` row: a human checkpoint of the workflow graph.
Offices are identified by their primary key. -/
structure StageNode where
  node_id : String
  name : String
  action_type : String
  assigned_offices : List Nat
  multi_office_rule : MultiOfficeRule
deriving DecidableEq

/-- An `ActionNode` row: an automated step; `action_type` is the dispatch
string (`send_alert`, `send_email`, `complete`, `reject`, `wait`,
`webhook`). -/
structure ActionNode where
  node_id : String
  name : String
  action_type : String
deriving DecidableEq

/-- A `NodeConnection` row: a typed directed edge of the workflow graph. -/
structure NodeConnection where
  from_node : String
  to_node : String
  connection_type : String
deriving DecidableEq

/-- A `WorkflowTemplate` row together with its owned nodes and connections. -/
structure WorkflowTemplate where
  stagenode_nodes : List StageNode
  actionnode_nodes : List ActionNode
  connections : List NodeConnection
deriving DecidableEq

/-- A `RoutingHistory` row (the `triggered_by` link is not modelled; no claim
mentions it). -/
structure RoutingHistoryRec where
  from_node : String
  to_node : String
  transition_type : TransitionType
deriving DecidableEq

/-- A `StageCompletion` row for one `(package, node, office)`. -/
structure StageCompletionRec where
  node_id : String
  office : Nat
deriving DecidableEq

/-- A `StageAction` row: one immutable human decision. -/
structure StageActionRec where
  node_id : String
  actor : Nat
  actor_office : Nat
  actor_position : String
  action_type : String
  comment : String
  return_to_node : String
deriving DecidableEq

/-- One notification call issued by the engine (office-wide or per-user). -/
inductive NotifyEvent where
  | office (officeId : Nat) (ntype : String)
  | user (userId : Nat) (ntype : String)
deriving DecidableEq

/-- The database state the routing engine reads and writes: the package row,
its owned rows, the engine's notification calls, and the global
`OfficeMembership` table as `(user, office)` pairs. -/
structure PackageState where
  status : Status
  current_node : String
  submitted_at : Bool
  completed_at : Bool
  originator : Nat
  workflow_template : Option WorkflowTemplate
  stage_actions : List StageActionRec
  completions : List StageCompletionRec
  history : List RoutingHistoryRec
  notifications : List NotifyEvent
  memberships : List (Nat × Nat)
deriving DecidableEq

/-- `RoutingService.get_start_node`: all node ids minus ids that appear as a
connection target, preferring a stage node.  The source pops from a Python
set (undefined order); the model deterministically takes the first such node
in row order, per spec §9 this tie-break is unspecified. -/
def get_start_node (st : PackageState) : Option String :=
  match st.workflow_template with
  | none => none
  | some t =>
    let to_nodes := t.connections.map (·.to_node)
    match (t.stagenode_nodes.map (·.node_id)).filter
        (fun n => !(to_nodes.contains n)) with
    | n :: _ => some n
    | [] =>
      match (t.actionnode_nodes.map (·.node_id)).filter
          (fun n => !(to_nodes.contains n)) with
      | n :: _ => some n
      | [] => none

/-- `RoutingService.get_current_stage`. -/
def get_current_stage (st : PackageState) : Option StageNode :=
  match st.workflow_template with
  | none => none
  | some t =>
    if st.current_node = "" then none
    else t.stagenode_nodes.find? (fun s => s.node_id == st.current_node)

/-- `RoutingService.get_node`: stage node first, then action node. -/
def get_node (st : PackageState) (node_id : String) :
    Option (StageNode ⊕ ActionNode) :=
  match st.workflow_template with
  | none => none
  | some t =>
    match t.stagenode_nodes.find? (fun s => s.node_id == node_id) with
    | some s => some (Sum.inl s)
    | none =>
      (t.actionnode_nodes.find? (fun a => a.node_id == node_id)).map Sum.inr

/-- `RoutingService.get_next_node_id`: first connection matching
`(from_node, connection_type)`. -/
def get_next_node_id (st : PackageState) (from_node connection_type : String) :
    Option String :=
  match st.workflow_template with
  | none => none
  | some t =>
    (t.connections.find? (fun c =>
      c.from_node == from_node && c.connection_type == connection_type)).map
      (·.to_node)

/-- `StageCompletion.objects.filter(package, node_id, office).exists()`. -/
def completion_exists (st : PackageState) (node_id : String) (office : Nat) :
    Bool :=
  st.completions.any (fun c => c.node_id == node_id && c.office == office)

/-- Number of `StageCompletion` rows for this package and node. -/
def completion_count (st : PackageState) (node_id : String) : Nat :=
  (st.completions.filter (fun c => c.node_id == node_id)).length

/-- `RoutingService.can_user_act`. -/
def can_user_act (st : PackageState) (user office : Nat) : Bool :=
  match get_current_stage st with
  | none => false
  | some stage =>
    if !(stage.assigned_offices.contains office) then false
    else if stage.multi_office_rule = MultiOfficeRule.all &&
        completion_exists st stage.node_id office then false
    else st.memberships.contains (user, office)

/-- `RoutingService.is_stage_complete`. -/
def is_stage_complete (st : PackageState) (stage : StageNode) : Bool :=
  match stage.multi_office_rule with
  | .any => st.completions.any (fun c => c.node_id == stage.node_id)
  | .all =>
    if stage.assigned_offices.length = 0 then true
    else decide (stage.assigned_offices.length ≤
      completion_count st stage.node_id)

/-- `RoutingService._notify_stage_offices`: one `notify_office` call per
assigned office ("package arrived"). -/
def notify_stage_offices (st : PackageState) (stage : StageNode) :
    PackageState :=
  { st with
    notifications := st.notifications ++
      stage.assigned_offices.map
        (fun o => NotifyEvent.office o "package_arrived") }

/-- `ActionExecutor._complete_workflow`. -/
def complete_workflow (st : PackageState) (node : ActionNode) : PackageState :=
  { st with
    status := .completed
    completed_at := true
    current_node := ""
    history := st.history ++ [⟨node.node_id, "", .complete⟩]
    notifications := st.notifications ++
      [NotifyEvent.user st.originator "package_completed"] }

/-- `ActionExecutor._reject_workflow`. -/
def reject_workflow (st : PackageState) (node : ActionNode) : PackageState :=
  { st with
    status := .cancelled
    current_node := ""
    history := st.history ++ [⟨node.node_id, "", .reject⟩]
    notifications := st.notifications ++
      [NotifyEvent.user st.originator "package_rejected"] }

/-- `ActionExecutor.execute`: string-keyed dispatch; unknown kinds are
ignored.  `send_alert` is modelled with the source's default configuration
(recipients = `["originator"]`); `send_email`, `wait` and `webhook` have no
effect on routing state (external side effects only). -/
def execute_action (st : PackageState) (node : ActionNode) : PackageState :=
  match node.action_type with
  | "send_alert" =>
    { st with
      notifications := st.notifications ++
        [NotifyEvent.user st.originator "action_required"] }
  | "send_email" => st
  | "complete" => complete_workflow st node
  | "reject" => reject_workflow st node
  | "wait" => st
  | "webhook" => st
  | _ => st

/-- `RoutingService._execute_action_nodes_from`, with explicit fuel in place
of the source's unbounded recursion (fuel 0 stops, modelling the cut-off of a
divergent chain; every theorem supplies enough fuel). -/
def execute_action_nodes_from : Nat → PackageState → String → PackageState
  | 0, st, _ => st
  | fuel + 1, st, node_id =>
    match get_node st node_id with
    | some (Sum.inl stage) => notify_stage_offices st stage
    | some (Sum.inr anode) =>
      let st1 := execute_action st anode
      if st1.status = Status.completed ∨ st1.status = Status.cancelled then st1
      else
        match get_next_node_id st1 node_id "default" with
        | none => st1
        | some next_id =>
          execute_action_nodes_from fuel
            { st1 with
              current_node := next_id
              history := st1.history ++ [⟨node_id, next_id, .advance⟩] }
            next_id
    | none => st

/-- `RoutingService.submit_package`. -/
def submit_package (fuel : Nat) (st : PackageState) (user : Nat) :
    Except String PackageState :=
  if st.status ≠ Status.draft then
    .error "Package must be in draft status to submit"
  else if st.workflow_template = none then
    .error "Package must have a workflow template"
  else if st.originator ≠ user then
    .error "Only the originator can submit this package"
  else
    match get_start_node st with
    | none => .error "Workflow has no start node"
    | some start_node =>
      .ok (execute_action_nodes_from fuel
        { st with
          status := .in_routing
          submitted_at := true
          current_node := start_node
          history := st.history ++ [⟨"", start_node, .submit⟩] }
        start_node)

/-- `submit_package` as a state transformer: on error the transaction rolls
back and the state is unchanged. -/
def submit_package_run (fuel : Nat) (st : PackageState) (user : Nat) :
    PackageState :=
  match submit_package fuel st user with
  | .error _ => st
  | .ok st' => st'

/-- `RoutingService._advance_to_next`. -/
def advance_to_next (fuel : Nat) (st : PackageState)
    (connection_type : String) : PackageState :=
  let from_node := st.current_node
  match get_next_node_id st from_node connection_type with
  | none =>
    { st with
      status := .completed
      completed_at := true
      current_node := ""
      history := st.history ++ [⟨from_node, "", .complete⟩] }
  | some next_node =>
    execute_action_nodes_from fuel
      { st with
        current_node := next_node
        history := st.history ++ [⟨from_node, next_node, .advance⟩] }
      next_node

/-- `RoutingService._handle_complete`. -/
def handle_complete (fuel : Nat) (st : PackageState) (sa : StageActionRec)
    (stage : StageNode) : PackageState :=
  let st1 := { st with
    completions := st.completions ++ [⟨stage.node_id, sa.actor_office⟩] }
  if is_stage_complete st1 stage then advance_to_next fuel st1 "default"
  else st1

/-- `RoutingService._handle_return`: clear completions at the node being
left, move verbatim to the requested destination, record the transition. -/
def handle_return (st : PackageState) (return_to_node : String) :
    PackageState :=
  let from_node := st.current_node
  { st with
    completions := st.completions.filter (fun c => c.node_id != from_node)
    current_node := return_to_node
    history := st.history ++ [⟨from_node, return_to_node, .ret⟩] }

/-- `RoutingService._handle_reject`. -/
def handle_reject (fuel : Nat) (st : PackageState) : PackageState :=
  let from_node := st.current_node
  match get_next_node_id st from_node "reject" with
  | some reject_node =>
    execute_action_nodes_from fuel
      { st with
        current_node := reject_node
        history := st.history ++ [⟨from_node, reject_node, .reject⟩] }
      reject_node
  | none =>
    { st with
      status := .cancelled
      history := st.history ++ [⟨from_node, "", .reject⟩] }

/-- `StageAction.ActionType` choices. -/
def valid_action_types : List String := ["complete", "return", "reject"]

/-- Python `str.strip()`: drop leading and trailing whitespace. -/
def py_strip (s : String) : String :=
  String.mk
    (((s.toList.dropWhile Char.isWhitespace).reverse.dropWhile
      Char.isWhitespace).reverse)

/-- Python `str.title()` restricted to the single lowercase words it is
applied to in the source (`"return"`, `"reject"`). -/
def py_title (s : String) : String :=
  match s.toList with
  | [] => ""
  | c :: cs => String.mk (c.toUpper :: cs.map Char.toLower)

/-- `RoutingService.take_action`: validation in source order, then the
immutable `StageAction` row, then dispatch to the decision handler. -/
def take_action (fuel : Nat) (st : PackageState) (user office : Nat)
    (action_type comment return_to_node position : String) :
    Except String (PackageState × StageActionRec) :=
  if st.status ≠ Status.in_routing then .error "Package is not in routing"
  else if !(can_user_act st user office) then
    .error "User cannot act at this stage"
  else
    match get_current_stage st with
    | none => .error "No current stage"
    | some stage =>
      if !(valid_action_types.contains action_type) then
        .error ("Invalid action type: " ++ action_type)
      else if (action_type == "return" || action_type == "reject") &&
          py_strip comment == "" then
        .error (py_title action_type ++ " requires a comment")
      else if action_type == "return" && return_to_node == "" then
        .error "Return action requires a destination node"
      else
        let sa : StageActionRec :=
          ⟨stage.node_id, user, office, position, action_type, comment,
            return_to_node⟩
        let st1 := { st with stage_actions := st.stage_actions ++ [sa] }
        if action_type == "complete" then
          .ok (handle_complete fuel st1 sa stage, sa)
        else if action_type == "return" then
          .ok (handle_return st1 return_to_node, sa)
        else
          .ok (handle_reject fuel st1, sa)

/-- `take_action` as a state transformer: on `RoutingError` the transaction
rolls back and the state is unchanged. -/
def take_action_run (fuel : Nat) (st : PackageState) (user office : Nat)
    (action_type comment return_to_node position : String) : PackageState :=
  match take_action fuel st user office action_type comment return_to_node
      position with
  | .error _ => st
  | .ok (st', _) => st'

/-- Number of history rows with a given transition type. -/
def count_transitions (h : List RoutingHistoryRec) (t : TransitionType) :
    Nat :=
  (h.filter (fun r => r.transition_type == t)).length

/-- `pat` occurs as a contiguous substring of `s`. -/
def str_contains (s pat : String) : Bool :=
  (List.range (s.toList.length + 1)).any
    (fun i => pat.toList.isPrefixOf (s.toList.drop i))

/-! ## Concrete fixtures used by witnesses and counterexamples

Workflow graph: `stage1 --default--> stage2`, `stage1 --reject--> rejectA`;
`rejectA` is an action node of kind `reject`; `stage2` has no outgoing or
reject edge.  Office 1 (member: user 10) and office 2 (member: user 20);
`stage1` is an `any` stage of office 1, `stage2` an `all` stage of both. -/

/-- Fixture workflow template. -/
def tmplMain : WorkflowTemplate :=
  { stagenode_nodes := [
      ⟨"stage1", "Stage One", "APPROVE", [1], .any⟩,
      ⟨"stage2", "Stage Two", "APPROVE", [1, 2], .all⟩]
    actionnode_nodes := [⟨"rejectA", "Reject Action", "reject"⟩]
    connections := [
      ⟨"stage1", "stage2", "default"⟩,
      ⟨"stage1", "rejectA", "reject"⟩] }

/-- Fixture package in draft state. -/
def pkg0 : PackageState :=
  { status := .draft
    current_node := ""
    submitted_at := false
    completed_at := false
    originator := 10
    workflow_template := some tmplMain
    stage_actions := []
    completions := []
    history := []
    notifications := []
    memberships := [(10, 1), (20, 2)] }

/-- Fixture package in routing at a given node. -/
def pkgAt (node : String) : PackageState :=
  { pkg0 with
    status := .in_routing
    submitted_at := true
    current_node := node }

/-! ## Dispatch lemmas: `take_action` validation and handler dispatch -/

/-- With all preconditions met, a `complete` decision records the
`StageAction` row and dispatches to `_handle_complete`. -/
theorem take_action_complete_eq (fuel : Nat) (st : PackageState)
    (user office : Nat) (comment return_to_node position : String)
    (stage : StageNode)
    (hstat : st.status = Status.in_routing)
    (hcan : can_user_act st user office = true)
    (hstage : get_current_stage st = some stage) :
    take_action fuel st user office "complete" comment return_to_node
        position =
      .ok (handle_complete fuel
        { st with stage_actions := st.stage_actions ++
            [⟨stage.node_id, user, office, position, "complete", comment,
              return_to_node⟩] }
        ⟨stage.node_id, user, office, position, "complete", comment,
          return_to_node⟩ stage,
        ⟨stage.node_id, user, office, position, "complete", comment,
          return_to_node⟩) := by
  simp [take_action, hstat, hcan, hstage, valid_action_types]

/-- With all preconditions met (non-blank comment, non-empty destination), a
`return` decision records the `StageAction` row and dispatches to
`_handle_return`. -/
theorem take_action_return_eq (fuel : Nat) (st : PackageState)
    (user office : Nat) (comment return_to_node position : String)
    (stage : StageNode)
    (hstat : st.status = Status.in_routing)
    (hcan : can_user_act st user office = true)
    (hstage : get_current_stage st = some stage)
    (hcomment : py_strip comment ≠ "")
    (hdest : return_to_node ≠ "") :
    take_action fuel st user office "return" comment return_to_node
        position =
      .ok (handle_return
        { st with stage_actions := st.stage_actions ++
            [⟨stage.node_id, user, office, position, "return", comment,
              return_to_node⟩] }
        return_to_node,
        ⟨stage.node_id, user, office, position, "return", comment,
          return_to_node⟩) := by
  have h1 : (py_strip comment == "") = false := beq_eq_false_iff_ne.mpr hcomment
  have h2 : (return_to_node == "") = false := beq_eq_false_iff_ne.mpr hdest
  simp [take_action, hstat, hcan, hstage, valid_action_types, h1, h2]

/-- With all preconditions met (non-blank comment), a `reject` decision
records the `StageAction` row and dispatches to `_handle_reject`. -/
theorem take_action_reject_eq (fuel : Nat) (st : PackageState)
    (user office : Nat) (comment return_to_node position : String)
    (stage : StageNode)
    (hstat : st.status = Status.in_routing)
    (hcan : can_user_act st user office = true)
    (hstage : get_current_stage st = some stage)
    (hcomment : py_strip comment ≠ "") :
    take_action fuel st user office "reject" comment return_to_node
        position =
      .ok (handle_reject fuel
        { st with stage_actions := st.stage_actions ++
            [⟨stage.node_id, user, office, position, "reject", comment,
              return_to_node⟩] },
        ⟨stage.node_id, user, office, position, "reject", comment,
          return_to_node⟩) := by
  have h1 : (py_strip comment == "") = false := beq_eq_false_iff_ne.mpr hcomment
  simp [take_action, hstat, hcan, hstage, valid_action_types, h1]

/-- Completion rows for node `n` all disappear after filtering the rows whose
node is `n` out (the `return` clearing step). -/
theorem completion_count_after_clear (l : List StageCompletionRec)
    (n : String) :
    ((l.filter (fun c => c.node_id != n)).filter
      (fun c => c.node_id == n)).length = 0 := by
  induction l with
  | nil => simp
  | cons c t ih =>
    by_cases h : c.node_id = n
    · simp [h, ih]
    · have hb : (c.node_id == n) = false := beq_eq_false_iff_ne.mpr h
      simp [hb, ih]

/-! ## Claim C5 — return clears completions and moves the package -/

/-- C5: for an in-routing package, a `return` decision deletes every
`StageCompletion` row of the node being left, sets `current_node` to
`return_to_node`, writes one `return` history entry `(from = old node,
to = return_to_node)`, and leaves the status at `in_routing`; consequently a
later re-entry into an `all`-rule stage at that node (with at least one
assigned office) is not complete, so every office must complete again. -/
theorem return_decision_spec (fuel : Nat) (st : PackageState)
    (user office : Nat) (comment return_to_node position : String)
    (stage : StageNode)
    (hstat : st.status = Status.in_routing)
    (hcan : can_user_act st user office = true)
    (hstage : get_current_stage st = some stage)
    (hcomment : py_strip comment ≠ "")
    (hdest : return_to_node ≠ "") :
    ∃ st', take_action fuel st user office "return" comment return_to_node
        position =
      .ok (st', ⟨stage.node_id, user, office, position, "return", comment,
        return_to_node⟩) ∧
    st' = { st with
      stage_actions := st.stage_actions ++
        [⟨stage.node_id, user, office, position, "return", comment,
          return_to_node⟩]
      completions :=
        st.completions.filter (fun c => c.node_id != st.current_node)
      current_node := return_to_node
      history := st.history ++
        [⟨st.current_node, return_to_node, .ret⟩] } ∧
    st'.status = Status.in_routing ∧
    completion_count st' st.current_node = 0 ∧
    (∀ s2 : StageNode, s2.node_id = st.current_node →
      s2.multi_office_rule = .all → s2.assigned_offices ≠ [] →
      is_stage_complete st' s2 = false) := by
  refine ⟨_, take_action_return_eq fuel st user office comment return_to_node
    position stage hstat hcan hstage hcomment hdest, rfl, ?_, ?_, ?_⟩
  · simp [handle_return, hstat]
  · simp [handle_return, completion_count, completion_count_after_clear]
  · intro s2 hnode hrule hoff
    have hlen : s2.assigned_offices.length ≠ 0 := by
      simpa [List.length_eq_zero] using hoff
    have hcount : completion_count (handle_return
        { st with stage_actions := st.stage_actions ++
          [⟨stage.node_id, user, office, position, "return", comment,
            return_to_node⟩] } return_to_node) s2.node_id = 0 := by
      simp [handle_return, completion_count, hnode, completion_count_after_clear]
    simp only [is_stage_complete, hrule, hcount]
    simp [hlen, Nat.le_zero]

/-- C5 witness: at the `all` stage `stage2` where office 2 already completed,
office 1 returns the package to `stage1`; the completions at `stage2` are
cleared and the stage is no longer complete. -/
theorem return_decision_witness :
    ∃ st', take_action 3
        { pkgAt "stage2" with completions := [⟨"stage2", 2⟩] } 10 1 "return"
        "go back" "stage1" "" =
      .ok (st', ⟨"stage2", 10, 1, "", "return", "go back", "stage1"⟩) ∧
    st'.status = Status.in_routing ∧
    completion_count st' "stage2" = 0 := by
  obtain ⟨st', h1, _, h3, h4, _⟩ := return_decision_spec 3
    { pkgAt "stage2" with completions := [⟨"stage2", 2⟩] } 10 1 "go back"
    "stage1" "" ⟨"stage2", "Stage Two", "APPROVE", [1, 2], .all⟩
    rfl (by decide) (by decide) (by decide) (by decide)
  exact ⟨st', h1, h3, h4⟩

/-! ## Claim C10 — return destinations are not validated -/

/-- C10: a `return` decision never validates the destination against the
workflow graph or the visit history: any non-empty `return_to_node` with a
non-blank comment is accepted and `current_node` is set verbatim to that
string.  In particular, when the destination is not the id of any stage node
of the template (e.g. not a node id at all), the package remains `in_routing`
at a node with no current stage, where `can_user_act` is false for every user
and office. -/
theorem return_no_validation_spec (fuel : Nat) (st : PackageState)
    (user office : Nat) (comment return_to_node position : String)
    (stage : StageNode)
    (hstat : st.status = Status.in_routing)
    (hcan : can_user_act st user office = true)
    (hstage : get_current_stage st = some stage)
    (hcomment : py_strip comment ≠ "")
    (hdest : return_to_node ≠ "") :
    ∃ st', take_action fuel st user office "return" comment return_to_node
        position =
      .ok (st', ⟨stage.node_id, user, office, position, "return", comment,
        return_to_node⟩) ∧
    st'.current_node = return_to_node ∧
    st'.status = Status.in_routing ∧
    (∀ t, st.workflow_template = some t →
      (∀ s ∈ t.stagenode_nodes, s.node_id ≠ return_to_node) →
      get_current_stage st' = none ∧
      ∀ u2 o2 : Nat, can_user_act st' u2 o2 = false) := by
  refine ⟨_, take_action_return_eq fuel st user office comment return_to_node
    position stage hstat hcan hstage hcomment hdest, ?_, ?_, ?_⟩
  · simp [handle_return]
  · simp [handle_return, hstat]
  · intro t ht habsent
    have hcur : get_current_stage (handle_return
        { st with stage_actions := st.stage_actions ++
          [⟨stage.node_id, user, office, position, "return", comment,
            return_to_node⟩] } return_to_node) = none := by
      simp only [get_current_stage, handle_return]
      rw [show ({ st with stage_actions := st.stage_actions ++
        [⟨stage.node_id, user, office, position, "return", comment,
          return_to_node⟩] } : PackageState).workflow_template =
        some t from ht]
      simp only [hdest, if_false]
      rw [List.find?_eq_none]
      intro s hs
      simpa using beq_eq_false_iff_ne.mpr (habsent s hs)
    refine ⟨hcur, ?_⟩
    intro u2 o2
    simp [can_user_act, hcur]

/-- C10 witness: returning to the id `ghost`, which is no node of the
template, is accepted; the package is then in routing at a nonexistent node
where nobody can act. -/
theorem return_no_validation_witness :
    ∃ st', take_action 3 (pkgAt "stage1") 10 1 "return" "send it back"
        "ghost" "" =
      .ok (st', ⟨"stage1", 10, 1, "", "return", "send it back", "ghost"⟩) ∧
    st'.current_node = "ghost" ∧
    st'.status = Status.in_routing ∧
    get_current_stage st' = none ∧
    can_user_act st' 10 1 = false := by
  obtain ⟨st', h1, h2, h3, h4⟩ := return_no_validation_spec 3
    (pkgAt "stage1") 10 1 "send it back" "ghost" ""
    ⟨"stage1", "Stage One", "APPROVE", [1], .any⟩
    rfl (by decide) (by decide) (by decide) (by decide)
  obtain ⟨h5, h6⟩ := h4 tmplMain rfl (by decide)
  exact ⟨st', h1, h2, h3, h5, h6 10 1⟩

/-! ## Claim C6 — RoutingError messages and rollback -/

/-- C6: a `return` decision without a destination raises a `RoutingError`
whose message mentions "destination"; a `return` or `reject` decision with a
blank comment raises a `RoutingError` whose message mentions "comment"; and
whenever `take_action` raises a `RoutingError`, the package state is
unchanged (the error branches of `take_action` produce no state and the
transaction rolls back). -/
theorem take_action_error_spec (fuel : Nat) (st : PackageState)
    (user office : Nat) (comment return_to_node position : String)
    (stage : StageNode)
    (hstat : st.status = Status.in_routing)
    (hcan : can_user_act st user office = true)
    (hstage : get_current_stage st = some stage) :
    (py_strip comment ≠ "" →
      take_action fuel st user office "return" comment "" position =
        .error "Return action requires a destination node" ∧
      str_contains "Return action requires a destination node" "destination"
        = true) ∧
    (py_strip comment = "" →
      take_action fuel st user office "return" comment return_to_node
          position = .error "Return requires a comment" ∧
      take_action fuel st user office "reject" comment return_to_node
          position = .error "Reject requires a comment" ∧
      str_contains "Return requires a comment" "comment" = true ∧
      str_contains "Reject requires a comment" "comment" = true) ∧
    (∀ (st2 : PackageState) (u2 o2 : Nat) (a c r p e : String),
      take_action fuel st2 u2 o2 a c r p = .error e →
      take_action_run fuel st2 u2 o2 a c r p = st2) := by
  refine ⟨?_, ?_, ?_⟩
  · intro hcomment
    have h1 : (py_strip comment == "") = false :=
      beq_eq_false_iff_ne.mpr hcomment
    constructor
    · simp [take_action, hstat, hcan, hstage, valid_action_types, h1]
    · decide
  · intro hcomment
    have h1 : (py_strip comment == "") = true := beq_iff_eq.mpr hcomment
    refine ⟨?_, ?_, by decide, by decide⟩
    · simp [take_action, hstat, hcan, hstage, valid_action_types, h1]
      rfl
    · simp [take_action, hstat, hcan, hstage, valid_action_types, h1]
      rfl
  · intro st2 u2 o2 a c r p e herr
    simp [take_action_run, herr]

/-- C6 witness: concrete error messages for a missing destination and a
blank comment, and the state unchanged after the error. -/
theorem take_action_error_witness :
    (take_action 3 (pkgAt "stage1") 10 1 "return" "please" "" "" =
      .error "Return action requires a destination node") ∧
    (take_action 3 (pkgAt "stage1") 10 1 "return" " " "stage1" "" =
      .error "Return requires a comment") ∧
    (take_action 3 (pkgAt "stage1") 10 1 "reject" "" "" "" =
      .error "Reject requires a comment") ∧
    take_action_run 3 (pkgAt "stage1") 10 1 "return" "please" "" "" =
      pkgAt "stage1" := by
  have h := take_action_error_spec 3 (pkgAt "stage1") 10 1 "please" "" ""
    ⟨"stage1", "Stage One", "APPROVE", [1], .any⟩ rfl (by decide) (by decide)
  have h2 := take_action_error_spec 3 (pkgAt "stage1") 10 1 " " "stage1" ""
    ⟨"stage1", "Stage One", "APPROVE", [1], .any⟩ rfl (by decide) (by decide)
  have h3 := take_action_error_spec 3 (pkgAt "stage1") 10 1 "" "" ""
    ⟨"stage1", "Stage One", "APPROVE", [1], .any⟩ rfl (by decide) (by decide)
  refine ⟨(h.1 (by decide)).1, (h2.2.1 (by decide)).1,
    (h3.2.1 (by decide)).2.1, ?_⟩
  exact h.2.2 (pkgAt "stage1") 10 1 "return" "please" "" "" _
    (h.1 (by decide)).1

/-! ## Claim C1 — reject follows the reject edge or cancels in place -/

/-- C1 counterexample: at `stage2`, which has no reject-typed edge, a reject
decision cancels the package but `current_node` is NOT cleared to the empty
string — it still holds `"stage2"`, contradicting the claim that the
direct-cancel branch clears `current_node`. -/
theorem reject_no_edge_counterexample :
    (take_action_run 3 (pkgAt "stage2") 10 1 "reject" "no" "" "").status =
      Status.cancelled ∧
    (take_action_run 3 (pkgAt "stage2") 10 1 "reject" "no" "" "").current_node
      = "stage2" ∧
    (take_action_run 3 (pkgAt "stage2") 10 1 "reject" "no" "" "").current_node
      ≠ "" := by
  decide

/-- C1 (amended): for an in-routing package, a reject decision looks up the
reject-typed connection from the current node; if one exists the package
moves to its target, a reject history entry `(from = old node, to = target)`
is written, and action-node chaining continues from the target; if none
exists the package status becomes cancelled and a reject history entry
`(from = old node, to = "")` is written, but `current_node` is left
unchanged (the direct-cancel branch does not clear it). -/
theorem reject_decision_spec (fuel : Nat) (st : PackageState)
    (user office : Nat) (comment return_to_node position : String)
    (stage : StageNode)
    (hstat : st.status = Status.in_routing)
    (hcan : can_user_act st user office = true)
    (hstage : get_current_stage st = some stage)
    (hcomment : py_strip comment ≠ "") :
    (∀ target, get_next_node_id st st.current_node "reject" = some target →
      take_action fuel st user office "reject" comment return_to_node
          position =
        .ok (execute_action_nodes_from fuel
          { st with
            stage_actions := st.stage_actions ++
              [⟨stage.node_id, user, office, position, "reject", comment,
                return_to_node⟩]
            current_node := target
            history := st.history ++ [⟨st.current_node, target, .reject⟩] }
          target,
          ⟨stage.node_id, user, office, position, "reject", comment,
            return_to_node⟩)) ∧
    (get_next_node_id st st.current_node "reject" = none →
      ∃ st', take_action fuel st user office "reject" comment return_to_node
          position =
        .ok (st', ⟨stage.node_id, user, office, position, "reject", comment,
          return_to_node⟩) ∧
      st' = { st with
        stage_actions := st.stage_actions ++
          [⟨stage.node_id, user, office, position, "reject", comment,
            return_to_node⟩]
        status := .cancelled
        history := st.history ++ [⟨st.current_node, "", .reject⟩] } ∧
      st'.status = Status.cancelled ∧
      st'.current_node = st.current_node) := by
  rw [take_action_reject_eq fuel st user office comment return_to_node
    position stage hstat hcan hstage hcomment]
  constructor
  · intro target htarget
    simp only [handle_reject]
    rw [show get_next_node_id
      { st with stage_actions := st.stage_actions ++
        [⟨stage.node_id, user, office, position, "reject", comment,
          return_to_node⟩] }
      ({ st with stage_actions := st.stage_actions ++
        [⟨stage.node_id, user, office, position, "reject", comment,
          return_to_node⟩] } : PackageState).current_node "reject" =
      some target from htarget]
  · intro hnone
    have hrec : handle_reject fuel
        { st with stage_actions := st.stage_actions ++
          [⟨stage.node_id, user, office, position, "reject", comment,
            return_to_node⟩] } =
        { st with
          stage_actions := st.stage_actions ++
            [⟨stage.node_id, user, office, position, "reject", comment,
              return_to_node⟩]
          status := .cancelled
          history := st.history ++ [⟨st.current_node, "", .reject⟩] } := by
      simp only [handle_reject]
      rw [show get_next_node_id
        { st with stage_actions := st.stage_actions ++
          [⟨stage.node_id, user, office, position, "reject", comment,
            return_to_node⟩] }
        ({ st with stage_actions := st.stage_actions ++
          [⟨stage.node_id, user, office, position, "reject", comment,
            return_to_node⟩] } : PackageState).current_node "reject" =
        none from hnone]
    exact ⟨_, rfl, hrec, by rw [hrec], by rw [hrec]⟩

/-- C1 witness: at `stage1`, whose reject edge leads to the action node
`rejectA`, a reject decision moves there, records the reject transition and
continues chaining from `rejectA`; at `stage2`, with no reject edge, the
package is cancelled in place. -/
theorem reject_decision_witness :
    (take_action 3 (pkgAt "stage1") 10 1 "reject" "bad" "" "" =
      .ok (execute_action_nodes_from 3
        { pkgAt "stage1" with
          stage_actions := [⟨"stage1", 10, 1, "", "reject", "bad", ""⟩]
          current_node := "rejectA"
          history := [⟨"stage1", "rejectA", .reject⟩] }
        "rejectA",
        ⟨"stage1", 10, 1, "", "reject", "bad", ""⟩)) ∧
    (∃ st', take_action 3 (pkgAt "stage2") 10 1 "reject" "bad" "" "" =
      .ok (st', ⟨"stage2", 10, 1, "", "reject", "bad", ""⟩) ∧
      st'.status = Status.cancelled ∧
      st'.current_node = "stage2") := by
  have h1 := reject_decision_spec 3 (pkgAt "stage1") 10 1 "bad" "" ""
    ⟨"stage1", "Stage One", "APPROVE", [1], .any⟩ rfl (by decide) (by decide)
    (by decide)
  have h2 := reject_decision_spec 3 (pkgAt "stage2") 10 1 "bad" "" ""
    ⟨"stage2", "Stage Two", "APPROVE", [1, 2], .all⟩ rfl (by decide)
    (by decide) (by decide)
  obtain ⟨st', hok, _, hcanc, hcur⟩ := h2.2 (by decide)
  exact ⟨h1.1 "rejectA" (by decide), st', hok, hcanc, hcur⟩

/-! ## Claim C4 — multi-office completion rules -/

/-- `_handle_complete` advances when the stage is complete after recording
the new completion row. -/
theorem handle_complete_advance (fuel : Nat) (st1 : PackageState)
    (sa : StageActionRec) (stage : StageNode)
    (h : is_stage_complete
      { st1 with completions :=
        st1.completions ++ [⟨stage.node_id, sa.actor_office⟩] } stage = true) :
    handle_complete fuel st1 sa stage =
      advance_to_next fuel
        { st1 with completions :=
          st1.completions ++ [⟨stage.node_id, sa.actor_office⟩] } "default" := by
  simp [handle_complete, h]

/-- `_handle_complete` stays at the node when the stage is still incomplete
after recording the new completion row. -/
theorem handle_complete_stay (fuel : Nat) (st1 : PackageState)
    (sa : StageActionRec) (stage : StageNode)
    (h : is_stage_complete
      { st1 with completions :=
        st1.completions ++ [⟨stage.node_id, sa.actor_office⟩] } stage =
      false) :
    handle_complete fuel st1 sa stage =
      { st1 with completions :=
        st1.completions ++ [⟨stage.node_id, sa.actor_office⟩] } := by
  simp [handle_complete, h]

/-- C4: for an `any`-rule stage, any complete decision makes the stage
complete (at least one completion row now exists) and advances immediately;
for an `all`-rule stage whose completion rows are one per distinct assigned
office, a complete decision with `k` prior completions stays at the node
while `k + 1 < N` and advances exactly when `k + 1 = N` (`N` = number of
assigned offices); an `all`-rule stage with zero assigned offices is
vacuously complete. -/
theorem stage_completion_rules_spec (fuel : Nat) (st : PackageState)
    (user office : Nat) (comment return_to_node position : String)
    (stage : StageNode)
    (hstat : st.status = Status.in_routing)
    (hcan : can_user_act st user office = true)
    (hstage : get_current_stage st = some stage)
    (_hdistinct : ((st.completions.filter
      (fun c => c.node_id == stage.node_id)).map (fun c => c.office)).Nodup)
    (_hassigned : ∀ c ∈ st.completions.filter
      (fun c => c.node_id == stage.node_id),
      c.office ∈ stage.assigned_offices) :
    (stage.multi_office_rule = .any →
      take_action fuel st user office "complete" comment return_to_node
          position =
        .ok (advance_to_next fuel
          { st with
            stage_actions := st.stage_actions ++
              [⟨stage.node_id, user, office, position, "complete", comment,
                return_to_node⟩]
            completions := st.completions ++ [⟨stage.node_id, office⟩] }
          "default",
          ⟨stage.node_id, user, office, position, "complete", comment,
            return_to_node⟩)) ∧
    (stage.multi_office_rule = .all →
      completion_count st stage.node_id + 1 < stage.assigned_offices.length →
      ∃ st', take_action fuel st user office "complete" comment
          return_to_node position =
        .ok (st', ⟨stage.node_id, user, office, position, "complete",
          comment, return_to_node⟩) ∧
      st' = { st with
        stage_actions := st.stage_actions ++
          [⟨stage.node_id, user, office, position, "complete", comment,
            return_to_node⟩]
        completions := st.completions ++ [⟨stage.node_id, office⟩] } ∧
      st'.current_node = st.current_node ∧
      st'.status = Status.in_routing) ∧
    (stage.multi_office_rule = .all →
      completion_count st stage.node_id + 1 = stage.assigned_offices.length →
      take_action fuel st user office "complete" comment return_to_node
          position =
        .ok (advance_to_next fuel
          { st with
            stage_actions := st.stage_actions ++
              [⟨stage.node_id, user, office, position, "complete", comment,
                return_to_node⟩]
            completions := st.completions ++ [⟨stage.node_id, office⟩] }
          "default",
          ⟨stage.node_id, user, office, position, "complete", comment,
            return_to_node⟩)) ∧
    (∀ s2 : StageNode, s2.multi_office_rule = .all →
      s2.assigned_offices = [] → is_stage_complete st s2 = true) := by
  rw [take_action_complete_eq fuel st user office comment return_to_node
    position stage hstat hcan hstage]
  refine ⟨?_, ?_, ?_, ?_⟩
  · intro hrule
    rw [handle_complete_advance fuel _ _ stage (by
      simp [is_stage_complete, hrule, List.any_append])]
  · intro hrule hlt
    have hN : stage.assigned_offices.length ≠ 0 := by omega
    have hfalse : is_stage_complete
        { st with
          stage_actions := st.stage_actions ++
            [⟨stage.node_id, user, office, position, "complete", comment,
              return_to_node⟩]
          completions := st.completions ++ [⟨stage.node_id, office⟩] }
        stage = false := by
      simp only [is_stage_complete, hrule]
      rw [if_neg hN]
      have hcnt : completion_count
          ({ st with
            stage_actions := st.stage_actions ++
              [⟨stage.node_id, user, office, position, "complete", comment,
                return_to_node⟩]
            completions := st.completions ++ [⟨stage.node_id, office⟩] } :
            PackageState)
          stage.node_id = completion_count st stage.node_id + 1 := by
        simp [completion_count, List.filter_append, List.filter]
      rw [hcnt]
      exact decide_eq_false (by omega)
    rw [handle_complete_stay fuel _ _ stage hfalse]
    exact ⟨_, rfl, rfl, by simp, by simp [hstat]⟩
  · intro hrule heq
    have htrue : is_stage_complete
        { st with
          stage_actions := st.stage_actions ++
            [⟨stage.node_id, user, office, position, "complete", comment,
              return_to_node⟩]
          completions := st.completions ++ [⟨stage.node_id, office⟩] }
        stage = true := by
      simp only [is_stage_complete, hrule]
      have hcnt : completion_count
          ({ st with
            stage_actions := st.stage_actions ++
              [⟨stage.node_id, user, office, position, "complete", comment,
                return_to_node⟩]
            completions := st.completions ++ [⟨stage.node_id, office⟩] } :
            PackageState)
          stage.node_id = completion_count st stage.node_id + 1 := by
        simp [completion_count, List.filter_append, List.filter]
      rw [hcnt]
      by_cases h0 : stage.assigned_offices.length = 0
      · rw [if_pos h0]
      · rw [if_neg h0]
        exact decide_eq_true (by omega)
    rw [handle_complete_advance fuel _ _ stage htrue]
  · intro s2 hrule hempty
    simp [is_stage_complete, hrule, hempty]

/-- C4 witness: at the `any` stage `stage1` a single completion by office 1
advances; at the `all` stage `stage2` (two offices) the first completion
stays at the node and the second advances; the degenerate zero-office `all`
stage is vacuously complete. -/
theorem stage_completion_rules_witness :
    (∃ st', take_action 3 (pkgAt "stage2") 10 1 "complete" "done" "" "" =
      .ok (st', ⟨"stage2", 10, 1, "", "complete", "done", ""⟩) ∧
      st'.current_node = "stage2" ∧
      st'.status = Status.in_routing) ∧
    (take_action 3 { pkgAt "stage2" with completions := [⟨"stage2", 2⟩] }
        10 1 "complete" "done" "" "" =
      .ok (advance_to_next 3
        { pkgAt "stage2" with
          stage_actions := [⟨"stage2", 10, 1, "", "complete", "done", ""⟩]
          completions := [⟨"stage2", 2⟩, ⟨"stage2", 1⟩] }
        "default",
        ⟨"stage2", 10, 1, "", "complete", "done", ""⟩)) ∧
    (take_action 3 (pkgAt "stage1") 10 1 "complete" "ok" "" "" =
      .ok (advance_to_next 3
        { pkgAt "stage1" with
          stage_actions := [⟨"stage1", 10, 1, "", "complete", "ok", ""⟩]
          completions := [⟨"stage1", 1⟩] }
        "default",
        ⟨"stage1", 10, 1, "", "complete", "ok", ""⟩)) ∧
    is_stage_complete pkg0 ⟨"x", "X", "APPROVE", [], .all⟩ = true := by
  have h1 := stage_completion_rules_spec 3 (pkgAt "stage2") 10 1 "done" "" ""
    ⟨"stage2", "Stage Two", "APPROVE", [1, 2], .all⟩ rfl (by decide)
    (by decide) (by decide) (by decide)
  have h2 := stage_completion_rules_spec 3
    { pkgAt "stage2" with completions := [⟨"stage2", 2⟩] } 10 1 "done" "" ""
    ⟨"stage2", "Stage Two", "APPROVE", [1, 2], .all⟩ rfl (by decide)
    (by decide) (by decide) (by decide)
  have h3 := stage_completion_rules_spec 3 (pkgAt "stage1") 10 1 "ok" "" ""
    ⟨"stage1", "Stage One", "APPROVE", [1], .any⟩ rfl (by decide)
    (by decide) (by decide) (by decide)
  obtain ⟨st', hok, _, hcur, hst⟩ := h1.2.1 rfl (by decide)
  exact ⟨⟨st', hok, hcur, hst⟩, h2.2.2.1 rfl (by decide), h3.1 rfl,
    h1.2.2.2 ⟨"x", "X", "APPROVE", [], .all⟩ rfl rfl⟩

end Papertrail

namespace Papertrail

/-! ## Claim C2 — node resolution after transitions -/

/-- C2 counterexample: a `return` transition that lands on the action node
`rejectA` (kind `reject`) does not resolve the landing node: the node is not
executed (status remains `in_routing`, not `cancelled` as executing the
reject node would make it — last conjunct) and no notification is sent. -/
theorem node_resolution_counterexample :
    get_node (pkgAt "stage1") "rejectA" =
      some (Sum.inr ⟨"rejectA", "Reject Action", "reject"⟩) ∧
    (take_action_run 5 (pkgAt "stage1") 10 1 "return" "back" "rejectA" ""
      ).current_node = "rejectA" ∧
    (take_action_run 5 (pkgAt "stage1") 10 1 "return" "back" "rejectA" ""
      ).status = Status.in_routing ∧
    (take_action_run 5 (pkgAt "stage1") 10 1 "return" "back" "rejectA" ""
      ).status ≠ Status.cancelled ∧
    (take_action_run 5 (pkgAt "stage1") 10 1 "return" "back" "rejectA" ""
      ).notifications = [] ∧
    (execute_action (pkgAt "rejectA")
      ⟨"rejectA", "Reject Action", "reject"⟩).status = Status.cancelled := by
  decide

/-- C2 (amended): after a submit, advance, or reject transition the engine
resolves the node it landed on — a stage node notifies every assigned office
and stops, an action node is executed and, unless execution terminated the
package, the default edge is followed (writing an `advance` history entry)
and resolution recurses.  A `return` transition does NOT resolve its landing
node: `_handle_return` only clears completions, sets `current_node` and
writes the `return` history entry — no notification is sent and no action
node is executed. -/
theorem node_resolution_spec (fuel : Nat) (st : PackageState)
    (node_id : String) :
    (∀ stage, get_node st node_id = some (Sum.inl stage) →
      execute_action_nodes_from (fuel + 1) st node_id =
        { st with
          notifications := st.notifications ++ stage.assigned_offices.map
            (fun o => NotifyEvent.office o "package_arrived") }) ∧
    (∀ anode, get_node st node_id = some (Sum.inr anode) →
      ((execute_action st anode).status = Status.completed ∨
          (execute_action st anode).status = Status.cancelled →
        execute_action_nodes_from (fuel + 1) st node_id =
          execute_action st anode) ∧
      (¬ ((execute_action st anode).status = Status.completed ∨
          (execute_action st anode).status = Status.cancelled) →
        (∀ next_id, get_next_node_id (execute_action st anode) node_id
            "default" = some next_id →
          execute_action_nodes_from (fuel + 1) st node_id =
            execute_action_nodes_from fuel
              { execute_action st anode with
                current_node := next_id
                history := (execute_action st anode).history ++
                  [⟨node_id, next_id, .advance⟩] }
              next_id) ∧
        (get_next_node_id (execute_action st anode) node_id "default" =
            none →
          execute_action_nodes_from (fuel + 1) st node_id =
            execute_action st anode))) ∧
    (∀ rtn, handle_return st rtn =
      { st with
        completions :=
          st.completions.filter (fun c => c.node_id != st.current_node)
        current_node := rtn
        history := st.history ++ [⟨st.current_node, rtn, .ret⟩] } ∧
      (handle_return st rtn).notifications = st.notifications ∧
      (handle_return st rtn).status = st.status) := by
  refine ⟨?_, ?_, ?_⟩
  · intro stage hnode
    simp only [execute_action_nodes_from, hnode]
    simp [notify_stage_offices]
  · intro anode hnode
    constructor
    · intro hterm
      simp only [execute_action_nodes_from, hnode]
      rw [if_pos hterm]
    · intro hterm
      constructor
      · intro next_id hnext
        simp only [execute_action_nodes_from, hnode]
        rw [if_neg hterm, hnext]
      · intro hnone
        simp only [execute_action_nodes_from, hnode]
        rw [if_neg hterm, hnone]
  · intro rtn
    exact ⟨rfl, rfl, rfl⟩

/-- C2 witness: landing on the stage node `stage1` notifies its assigned
office and stops; landing on the action node `rejectA` executes it (which
cancels the package, so chaining stops); and a return's state change keeps
the notification log untouched. -/
theorem node_resolution_witness :
    execute_action_nodes_from 2 (pkgAt "stage1") "stage1" =
      { pkgAt "stage1" with
        notifications := [NotifyEvent.office 1 "package_arrived"] } ∧
    execute_action_nodes_from 2 (pkgAt "rejectA") "rejectA" =
      execute_action (pkgAt "rejectA")
        ⟨"rejectA", "Reject Action", "reject"⟩ ∧
    (handle_return (pkgAt "stage1") "ghost").notifications =
      (pkgAt "stage1").notifications := by
  have h1 := node_resolution_spec 1 (pkgAt "stage1") "stage1"
  have h2 := node_resolution_spec 1 (pkgAt "rejectA") "rejectA"
  refine ⟨?_, ?_, (h1.2.2 "ghost").2.1⟩
  · exact h1.1 ⟨"stage1", "Stage One", "APPROVE", [1], .any⟩ (by decide)
  · exact (h2.2.1 ⟨"rejectA", "Reject Action", "reject"⟩ (by decide)).1
      (by decide)

/-! ## Claim C3 — submit preconditions and effects -/

/-- `count_transitions` distributes over append. -/
theorem count_transitions_append (h1 h2 : List RoutingHistoryRec)
    (t : TransitionType) :
    count_transitions (h1 ++ h2) t =
      count_transitions h1 t + count_transitions h2 t := by
  simp [count_transitions, List.filter_append]

/-- Executing one action node never writes a `submit` history row. -/
theorem execute_action_submit_count (st : PackageState) (a : ActionNode) :
    count_transitions (execute_action st a).history .submit =
      count_transitions st.history .submit := by
  unfold execute_action
  split <;>
    simp [complete_workflow, reject_workflow, count_transitions_append,
      count_transitions]

/-- Action-node chaining never writes a `submit` history row. -/
theorem execute_chain_submit_count (fuel : Nat) :
    ∀ (st : PackageState) (node : String),
      count_transitions (execute_action_nodes_from fuel st node).history
        .submit = count_transitions st.history .submit := by
  induction fuel with
  | zero => intro st node; rfl
  | succ n ih =>
    intro st node
    simp only [execute_action_nodes_from]
    cases hn : get_node st node with
    | none => rfl
    | some x =>
      cases x with
      | inl stage => simp [notify_stage_offices]
      | inr anode =>
        simp only []
        by_cases hterm : (execute_action st anode).status = Status.completed
            ∨ (execute_action st anode).status = Status.cancelled
        · rw [if_pos hterm]
          exact execute_action_submit_count st anode
        · rw [if_neg hterm]
          cases hnext : get_next_node_id (execute_action st anode) node
              "default" with
          | none => exact execute_action_submit_count st anode
          | some nxt =>
            rw [ih]
            simp only [count_transitions_append]
            rw [execute_action_submit_count st anode]
            simp [count_transitions]

end Papertrail

namespace Papertrail

/-- C3: for a draft package with a template whose graph has a start node,
`submit` by the originator succeeds: the resulting state is the chaining of
the intermediate state with status `in_routing`, `submitted_at` stamped,
`current_node` = start node, and one appended `submit` history row
`(from = "", to = start)`; chaining never adds further submit rows, so
exactly one submit row is appended; if the start node is a stage node the
final state still has status `in_routing` and `current_node` = start.  If
the status is not draft, no template is attached, the caller is not the
originator, or no start node exists, `submit` raises a `RoutingError` with
the corresponding message and the package is unchanged. -/
theorem submit_spec (fuel : Nat) (st : PackageState) (user : Nat) :
    (∀ s, st.status = Status.draft → st.originator = user →
      get_start_node st = some s →
      ∃ st', submit_package fuel st user = .ok st' ∧
        st' = execute_action_nodes_from fuel
          { st with
            status := .in_routing
            submitted_at := true
            current_node := s
            history := st.history ++ [⟨"", s, .submit⟩] } s ∧
        count_transitions st'.history .submit =
          count_transitions st.history .submit + 1 ∧
        (∀ stage, get_node st s = some (Sum.inl stage) →
          st'.status = Status.in_routing ∧ st'.current_node = s ∧
          st'.submitted_at = true)) ∧
    (st.status ≠ Status.draft →
      submit_package fuel st user =
        .error "Package must be in draft status to submit") ∧
    (st.status = Status.draft → st.workflow_template = none →
      submit_package fuel st user =
        .error "Package must have a workflow template") ∧
    (st.status = Status.draft → st.workflow_template ≠ none →
      st.originator ≠ user →
      submit_package fuel st user =
        .error "Only the originator can submit this package") ∧
    (st.status = Status.draft → st.workflow_template ≠ none →
      st.originator = user → get_start_node st = none →
      submit_package fuel st user = .error "Workflow has no start node") ∧
    (∀ e, submit_package fuel st user = .error e →
      submit_package_run fuel st user = st) := by
  refine ⟨?_, ?_, ?_, ?_, ?_, ?_⟩
  · intro s hstat ho hs
    have ht : st.workflow_template ≠ none := by
      intro hnone
      rw [get_start_node, hnone] at hs
      exact Option.noConfusion hs
    have hok : submit_package fuel st user = .ok
        (execute_action_nodes_from fuel
          { st with
            status := .in_routing
            submitted_at := true
            current_node := s
            history := st.history ++ [⟨"", s, .submit⟩] } s) := by
      simp [submit_package, hstat, ho, hs, ht]
    refine ⟨_, hok, rfl, ?_, ?_⟩
    · rw [execute_chain_submit_count]
      simp [count_transitions_append, count_transitions]
    · intro stage hstage
      have hmid : get_node
          ({ st with
            status := .in_routing
            submitted_at := true
            current_node := s
            history := st.history ++ [⟨"", s, .submit⟩] } : PackageState) s =
          some (Sum.inl stage) := hstage
      cases fuel with
      | zero => exact ⟨rfl, rfl, rfl⟩
      | succ n =>
        simp only [execute_action_nodes_from, hmid]
        exact ⟨rfl, rfl, rfl⟩
  · intro hstat
    simp [submit_package, hstat]
  · intro hstat ht
    simp [submit_package, hstat, ht]
  · intro hstat ht ho
    simp [submit_package, hstat, ht, ho]
  · intro hstat ht ho hs
    simp [submit_package, hstat, ht, ho, hs]
  · intro e he
    simp [submit_package_run, he]

/-- C3 witness: submitting the draft fixture by its originator lands on
`stage1` in routing with exactly one submit history row; submitting as a
different user fails with the originator error and leaves the package
unchanged. -/
theorem submit_witness :
    (∃ st', submit_package 3 pkg0 10 = .ok st' ∧
      count_transitions st'.history .submit = 1 ∧
      st'.status = Status.in_routing ∧
      st'.current_node = "stage1" ∧
      st'.submitted_at = true) ∧
    submit_package 3 pkg0 20 =
      .error "Only the originator can submit this package" ∧
    submit_package_run 3 pkg0 20 = pkg0 := by
  have h := submit_spec 3 pkg0 10
  have h2 := submit_spec 3 pkg0 20
  obtain ⟨st', hok, _, hcount, hland⟩ :=
    h.1 "stage1" rfl rfl (by decide)
  obtain ⟨hst, hcur, hsub⟩ :=
    hland ⟨"stage1", "Stage One", "APPROVE", [1], .any⟩ (by decide)
  have herr := h2.2.2.2.1 rfl (by decide) (by decide)
  exact ⟨⟨st', hok, hcount, hst, hcur, hsub⟩, herr,
    h2.2.2.2.2.2 _ herr⟩

end Papertrail

namespace Papertrail

/-! ## Canonical JSON (model of `json.dumps(payload, sort_keys=True,
separators=(",", ":"))` and of `json.loads`)

The payload values produced by `SignatureService.create_canonical_payload`
are strings, integers, arrays and objects; the JSON model covers exactly
these.  Python `dict`s are key-to-value maps whose `==` ignores insertion
order; the model represents an object as its association list, and the
round-trip theorem speaks of canonical values (objects listed in strictly
increasing key order — the canonical representative of the map).  Lean
`Char` ranges over Unicode scalar values, so strings containing lone
surrogates (expressible in a Python `str`) are outside the model. -/

/-- ASCII decimal digit test. -/
def is_digit (c : Char) : Bool := 48 ≤ c.toNat && c.toNat ≤ 57

/-- Decimal digit character. -/
def digit_char (d : Nat) : Char := Char.ofNat (48 + d)

/-- Decimal digits of `n`, most significant first (Python `str` of a
non-negative int). -/
def nat_to_chars (n : Nat) : List Char :=
  if _h : n < 10 then [digit_char n]
  else nat_to_chars (n / 10) ++ [digit_char (n % 10)]
termination_by n
decreasing_by omega

/-- Python `str` of an int: optional minus sign, then digits. -/
def int_to_chars (n : Int) : List Char :=
  if n < 0 then '-' :: nat_to_chars (-n).toNat else nat_to_chars n.toNat

/-- Greedy decimal-digit accumulator of the number parser. -/
def parse_digits_aux (acc : Nat) : List Char → Nat × List Char
  | [] => (acc, [])
  | c :: cs =>
    if is_digit c then parse_digits_aux (10 * acc + (c.toNat - 48)) cs
    else (acc, c :: cs)

/-- JSON number parser (integer part only — canonical payloads contain no
floats): optional minus sign followed by at least one digit. -/
def parse_int (cs : List Char) : Option (Int × List Char) :=
  match cs with
  | [] => none
  | c :: cs' =>
    if c = '-' then
      match cs' with
      | [] => none
      | d :: cs'' =>
        if is_digit d then
          let p := parse_digits_aux (d.toNat - 48) cs''
          some (-(p.1 : Int), p.2)
        else none
    else if is_digit c then
      let p := parse_digits_aux (c.toNat - 48) cs'
      some ((p.1 : Int), p.2)
    else none

/-- The remaining input after a serialized number never starts with a digit
(it is empty or starts with a separator or closing bracket). -/
def digit_free_head : List Char → Prop
  | [] => True
  | c :: _ => is_digit c = false

theorem digit_char_toNat (d : Nat) (h : d < 10) :
    (digit_char d).toNat = 48 + d := by
  interval_cases d <;> decide

theorem is_digit_digit_char (d : Nat) (h : d < 10) :
    is_digit (digit_char d) = true := by
  interval_cases d <;> decide

theorem parse_digits_aux_stop (acc : Nat) (rest : List Char)
    (h : digit_free_head rest) : parse_digits_aux acc rest = (acc, rest) := by
  cases rest with
  | nil => rfl
  | cons c t =>
    simp only [digit_free_head] at h
    simp [parse_digits_aux, h]

theorem parse_digits_aux_append (n : Nat) : ∀ (acc : Nat) (rest : List Char),
    parse_digits_aux acc (nat_to_chars n ++ rest) =
      parse_digits_aux (acc * 10 ^ (nat_to_chars n).length + n) rest := by
  induction n using Nat.strong_induction_on with
  | _ n ih =>
    intro acc rest
    by_cases h : n < 10
    · rw [nat_to_chars, dif_pos h]
      simp only [List.cons_append, List.nil_append, parse_digits_aux,
        is_digit_digit_char n h, if_true, digit_char_toNat n h,
        List.length_cons, List.length_nil]
      congr 1
      omega
    · rw [nat_to_chars, dif_neg h]
      rw [List.append_assoc, ih (n / 10) (by omega)]
      simp only [List.cons_append, List.nil_append, parse_digits_aux,
        is_digit_digit_char (n % 10) (by omega), if_true,
        digit_char_toNat (n % 10) (by omega), List.length_append,
        List.length_cons, List.length_nil]
      congr 1
      have hp : 10 ^ ((nat_to_chars (n / 10)).length + 1) =
          10 ^ (nat_to_chars (n / 10)).length * 10 := pow_succ 10 _
      rw [hp]
      have hdm : 10 * (n / 10) + n % 10 = n := Nat.div_add_mod n 10
      ring_nf
      omega

/-- `nat_to_chars` is nonempty and starts with a digit. -/
theorem nat_to_chars_head (n : Nat) : ∃ d t, nat_to_chars n =
    digit_char d :: t ∧ d < 10 := by
  induction n using Nat.strong_induction_on with
  | _ n ih =>
    by_cases h : n < 10
    · exact ⟨n, [], by rw [nat_to_chars, dif_pos h], h⟩
    · obtain ⟨d, t, hdt, hd⟩ := ih (n / 10) (by omega)
      exact ⟨d, t ++ [digit_char (n % 10)], by
        rw [nat_to_chars, dif_neg h, hdt, List.cons_append], hd⟩

/-- Parsing the serialized form of an integer yields it back, whenever the
remaining input does not begin with a digit. -/
theorem parse_int_round (n : Int) (rest : List Char)
    (h : digit_free_head rest) :
    parse_int (int_to_chars n ++ rest) = some (n, rest) := by
  by_cases hn : n < 0
  · rw [int_to_chars, if_pos hn]
    obtain ⟨d, t, hdt, hd⟩ := nat_to_chars_head (-n).toNat
    rw [hdt]
    simp only [List.cons_append, parse_int, if_pos rfl,
      is_digit_digit_char d hd, if_true, digit_char_toNat d hd]
    have haux : parse_digits_aux (48 + d - 48) (t ++ rest) =
        ((-n).toNat, rest) := by
      have h0 : parse_digits_aux 0 (nat_to_chars (-n).toNat ++ rest) =
          ((-n).toNat, rest) := by
        rw [parse_digits_aux_append]
        simp [parse_digits_aux_stop _ _ h]
      rw [hdt] at h0
      simp only [List.cons_append, parse_digits_aux,
        is_digit_digit_char d hd, if_true, digit_char_toNat d hd] at h0
      simpa using h0
    rw [haux]
    simp
    omega
  · rw [int_to_chars, if_neg hn]
    obtain ⟨d, t, hdt, hd⟩ := nat_to_chars_head n.toNat
    rw [hdt]
    have hdm : digit_char d ≠ '-' := by
      intro he
      have h1 := digit_char_toNat d hd
      rw [he] at h1
      have h2 : ('-').toNat = 45 := rfl
      omega
    simp only [List.cons_append, parse_int, if_neg hdm,
      is_digit_digit_char d hd, if_true, digit_char_toNat d hd]
    have haux : parse_digits_aux (48 + d - 48) (t ++ rest) =
        (n.toNat, rest) := by
      have h0 : parse_digits_aux 0 (nat_to_chars n.toNat ++ rest) =
          (n.toNat, rest) := by
        rw [parse_digits_aux_append]
        simp [parse_digits_aux_stop _ _ h]
      rw [hdt] at h0
      simp only [List.cons_append, parse_digits_aux,
        is_digit_digit_char d hd, if_true, digit_char_toNat d hd] at h0
      simpa using h0
    rw [haux]
    simp
    omega

end Papertrail

namespace Papertrail

/-- Hexadecimal digit character (lowercase, as produced by Python json). -/
def hex_digit (n : Nat) : Char :=
  Char.ofNat (if n < 10 then 48 + n else 87 + n)

/-- The four hex digits of a number below `0x10000`. -/
def hex4 (n : Nat) : List Char :=
  [hex_digit (n / 4096 % 16), hex_digit (n / 256 % 16),
   hex_digit (n / 16 % 16), hex_digit (n % 16)]

/-- Hexadecimal digit value. -/
def hex_val (c : Char) : Option Nat :=
  if 48 ≤ c.toNat ∧ c.toNat ≤ 57 then some (c.toNat - 48)
  else if 97 ≤ c.toNat ∧ c.toNat ≤ 102 then some (c.toNat - 87)
  else if 65 ≤ c.toNat ∧ c.toNat ≤ 70 then some (c.toNat - 55)
  else none

/-- `json.dumps` escaping of one character under `ensure_ascii=True`: `"`
and `\`, the five short escapes, `\uXXXX` for remaining characters outside
printable ASCII, and a surrogate pair for characters above the BMP. -/
def escape_char (c : Char) : List Char :=
  if c = '"' then ['\\', '"']
  else if c = '\\' then ['\\', '\\']
  else if c = Char.ofNat 8 then ['\\', 'b']
  else if c = Char.ofNat 9 then ['\\', 't']
  else if c = Char.ofNat 10 then ['\\', 'n']
  else if c = Char.ofNat 12 then ['\\', 'f']
  else if c = Char.ofNat 13 then ['\\', 'r']
  else if c.toNat < 32 ∨ 126 < c.toNat then
    if c.toNat < 65536 then '\\' :: 'u' :: hex4 c.toNat
    else
      ('\\' :: 'u' :: hex4 (55296 + (c.toNat - 65536) / 1024)) ++
        ('\\' :: 'u' :: hex4 (56320 + (c.toNat - 65536) % 1024))
  else [c]

/-- Escape every character of a string body. -/
def escape_list : List Char → List Char
  | [] => []
  | c :: t => escape_char c ++ escape_list t

mutual

/-- `json.loads` string-body scanner: consumes characters until the closing
quote, decoding escapes; rejects raw control characters and unpaired
surrogate escapes (which Lean `Char` cannot hold). -/
def parse_string_body : List Char → Option (List Char × List Char)
  | [] => none
  | c :: cs =>
    if c = '"' then some ([], cs)
    else if c = '\\' then parse_escape_seq cs
    else if c.toNat < 32 then none
    else (parse_string_body cs).map (fun p => (c :: p.1, p.2))
termination_by cs => cs.length

/-- Scanner state after a backslash: decode one escape sequence. -/
def parse_escape_seq : List Char → Option (List Char × List Char)
  | [] => none
  | e :: cs1 =>
    if e = '"' then (parse_string_body cs1).map (fun p => ('"' :: p.1, p.2))
    else if e = '\\' then
      (parse_string_body cs1).map (fun p => ('\\' :: p.1, p.2))
    else if e = '/' then
      (parse_string_body cs1).map (fun p => ('/' :: p.1, p.2))
    else if e = 'b' then
      (parse_string_body cs1).map (fun p => (Char.ofNat 8 :: p.1, p.2))
    else if e = 't' then
      (parse_string_body cs1).map (fun p => (Char.ofNat 9 :: p.1, p.2))
    else if e = 'n' then
      (parse_string_body cs1).map (fun p => (Char.ofNat 10 :: p.1, p.2))
    else if e = 'f' then
      (parse_string_body cs1).map (fun p => (Char.ofNat 12 :: p.1, p.2))
    else if e = 'r' then
      (parse_string_body cs1).map (fun p => (Char.ofNat 13 :: p.1, p.2))
    else if e = 'u' then parse_u_escape cs1
    else none
termination_by cs => cs.length

/-- Scanner state after `\u`: four hex digits, possibly the high half of a
surrogate pair. -/
def parse_u_escape : List Char → Option (List Char × List Char)
  | h1 :: h2 :: h3 :: h4 :: cs2 =>
    match hex_val h1, hex_val h2, hex_val h3, hex_val h4 with
    | some a, some b, some g, some d =>
      let n := ((a * 16 + b) * 16 + g) * 16 + d
      if 55296 ≤ n ∧ n < 56320 then parse_low_surrogate n cs2
      else if 56320 ≤ n ∧ n < 57344 then none
      else (parse_string_body cs2).map (fun p => (Char.ofNat n :: p.1, p.2))
    | _, _, _, _ => none
  | _ => none
termination_by cs => cs.length

/-- Scanner state after a high surrogate `\uXXXX`: the matching low half. -/
def parse_low_surrogate (n : Nat) : List Char → Option (List Char × List Char)
  | b1 :: b2 :: k1 :: k2 :: k3 :: k4 :: cs3 =>
    if b1 = '\\' ∧ b2 = 'u' then
      match hex_val k1, hex_val k2, hex_val k3, hex_val k4 with
      | some a2, some bb2, some g2, some d2 =>
        let m := ((a2 * 16 + bb2) * 16 + g2) * 16 + d2
        if 56320 ≤ m ∧ m < 57344 then
          (parse_string_body cs3).map (fun p =>
            (Char.ofNat (65536 + (n - 55296) * 1024 + (m - 56320)) ::
              p.1, p.2))
        else none
      | _, _, _, _ => none
    else none
  | _ => none
termination_by cs => cs.length

end

end Papertrail

namespace Papertrail

/-- Unicode scalar values are below `0x110000`. -/
theorem char_toNat_lt (c : Char) : c.toNat < 1114112 := by
  have h := c.valid
  unfold UInt32.isValidChar Nat.isValidChar at h
  have heq : c.toNat = c.val.toNat := rfl
  omega

/-- Unicode scalar values avoid the surrogate range. -/
theorem char_not_surrogate (c : Char) :
    ¬ (55296 ≤ c.toNat ∧ c.toNat < 57344) := by
  have h := c.valid
  unfold UInt32.isValidChar Nat.isValidChar at h
  have heq : c.toNat = c.val.toNat := rfl
  omega

theorem hex_val_hex_digit (d : Nat) (h : d < 16) :
    hex_val (hex_digit d) = some d := by
  interval_cases d <;> decide

/-- Recombining the four hex digits of a number below `0x10000`. -/
theorem hex4_recombine (v : Nat) (h : v < 65536) :
    ((v / 4096 % 16 * 16 + v / 256 % 16) * 16 + v / 16 % 16) * 16 +
      v % 16 = v := by omega

/-- Scanner inversion, quote character. -/
theorem parse_escape_char_q (rest : List Char) :
    parse_string_body (escape_char '"' ++ rest) =
      (parse_string_body rest).map (fun p => ('"' :: p.1, p.2)) := by
  rw [escape_char, if_pos rfl]
  simp only [List.cons_append, List.nil_append, parse_string_body,
    parse_escape_seq,
    eq_false (by decide : ¬ ('\\' = '"')),
    eq_true (rfl : '\\' = '\\'), eq_true (rfl : '"' = '"'),
    if_true, if_false]

/-- Scanner inversion, backslash character. -/
theorem parse_escape_char_bs (rest : List Char) :
    parse_string_body (escape_char '\\' ++ rest) =
      (parse_string_body rest).map (fun p => ('\\' :: p.1, p.2)) := by
  rw [escape_char, if_neg (by decide), if_pos rfl]
  simp only [List.cons_append, List.nil_append, parse_string_body,
    parse_escape_seq,
    eq_false (by decide : ¬ ('\\' = '"')),
    eq_true (rfl : '\\' = '\\'), if_true, if_false]

/-- Scanner inversion, backspace. -/
theorem parse_escape_char_b (rest : List Char) :
    parse_string_body (escape_char (Char.ofNat 8) ++ rest) =
      (parse_string_body rest).map (fun p => (Char.ofNat 8 :: p.1, p.2)) := by
  rw [escape_char, if_neg (by decide), if_neg (by decide), if_pos rfl]
  simp only [List.cons_append, List.nil_append, parse_string_body,
    parse_escape_seq,
    eq_false (by decide : ¬ ('\\' = '"')),
    eq_true (rfl : '\\' = '\\'),
    eq_false (by decide : ¬ ('b' = '"')),
    eq_false (by decide : ¬ ('b' = '\\')),
    eq_false (by decide : ¬ ('b' = '/')),
    eq_true (rfl : 'b' = 'b'), if_true, if_false]

/-- Scanner inversion, tab. -/
theorem parse_escape_char_t (rest : List Char) :
    parse_string_body (escape_char (Char.ofNat 9) ++ rest) =
      (parse_string_body rest).map (fun p => (Char.ofNat 9 :: p.1, p.2)) := by
  rw [escape_char, if_neg (by decide), if_neg (by decide),
    if_neg (by decide), if_pos rfl]
  simp only [List.cons_append, List.nil_append, parse_string_body,
    parse_escape_seq,
    eq_false (by decide : ¬ ('\\' = '"')),
    eq_true (rfl : '\\' = '\\'),
    eq_false (by decide : ¬ ('t' = '"')),
    eq_false (by decide : ¬ ('t' = '\\')),
    eq_false (by decide : ¬ ('t' = '/')),
    eq_false (by decide : ¬ ('t' = 'b')),
    eq_true (rfl : 't' = 't'), if_true, if_false]

/-- Scanner inversion, newline. -/
theorem parse_escape_char_n (rest : List Char) :
    parse_string_body (escape_char (Char.ofNat 10) ++ rest) =
      (parse_string_body rest).map (fun p => (Char.ofNat 10 :: p.1, p.2)) := by
  rw [escape_char, if_neg (by decide), if_neg (by decide),
    if_neg (by decide), if_neg (by decide), if_pos rfl]
  simp only [List.cons_append, List.nil_append, parse_string_body,
    parse_escape_seq,
    eq_false (by decide : ¬ ('\\' = '"')),
    eq_true (rfl : '\\' = '\\'),
    eq_false (by decide : ¬ ('n' = '"')),
    eq_false (by decide : ¬ ('n' = '\\')),
    eq_false (by decide : ¬ ('n' = '/')),
    eq_false (by decide : ¬ ('n' = 'b')),
    eq_false (by decide : ¬ ('n' = 't')),
    eq_true (rfl : 'n' = 'n'), if_true, if_false]

/-- Scanner inversion, form feed. -/
theorem parse_escape_char_f (rest : List Char) :
    parse_string_body (escape_char (Char.ofNat 12) ++ rest) =
      (parse_string_body rest).map (fun p => (Char.ofNat 12 :: p.1, p.2)) := by
  rw [escape_char, if_neg (by decide), if_neg (by decide),
    if_neg (by decide), if_neg (by decide), if_neg (by decide), if_pos rfl]
  simp only [List.cons_append, List.nil_append, parse_string_body,
    parse_escape_seq,
    eq_false (by decide : ¬ ('\\' = '"')),
    eq_true (rfl : '\\' = '\\'),
    eq_false (by decide : ¬ ('f' = '"')),
    eq_false (by decide : ¬ ('f' = '\\')),
    eq_false (by decide : ¬ ('f' = '/')),
    eq_false (by decide : ¬ ('f' = 'b')),
    eq_false (by decide : ¬ ('f' = 't')),
    eq_false (by decide : ¬ ('f' = 'n')),
    eq_true (rfl : 'f' = 'f'), if_true, if_false]

/-- Scanner inversion, carriage return. -/
theorem parse_escape_char_r (rest : List Char) :
    parse_string_body (escape_char (Char.ofNat 13) ++ rest) =
      (parse_string_body rest).map (fun p => (Char.ofNat 13 :: p.1, p.2)) := by
  rw [escape_char, if_neg (by decide), if_neg (by decide),
    if_neg (by decide), if_neg (by decide), if_neg (by decide),
    if_neg (by decide), if_pos rfl]
  simp only [List.cons_append, List.nil_append, parse_string_body,
    parse_escape_seq,
    eq_false (by decide : ¬ ('\\' = '"')),
    eq_true (rfl : '\\' = '\\'),
    eq_false (by decide : ¬ ('r' = '"')),
    eq_false (by decide : ¬ ('r' = '\\')),
    eq_false (by decide : ¬ ('r' = '/')),
    eq_false (by decide : ¬ ('r' = 'b')),
    eq_false (by decide : ¬ ('r' = 't')),
    eq_false (by decide : ¬ ('r' = 'n')),
    eq_false (by decide : ¬ ('r' = 'f')),
    eq_true (rfl : 'r' = 'r'), if_true, if_false]

/-- `\uXXXX` decoding for a non-surrogate BMP code point. -/
theorem parse_u_escape_round_bmp (n : Nat) (rest : List Char)
    (hn : n < 65536) (hns : ¬ (55296 ≤ n ∧ n < 57344)) :
    parse_u_escape (hex4 n ++ rest) =
      (parse_string_body rest).map (fun p => (Char.ofNat n :: p.1, p.2)) := by
  have e1 : hex_val (hex_digit (n / 4096 % 16)) = some (n / 4096 % 16) :=
    hex_val_hex_digit _ (Nat.mod_lt _ (by norm_num))
  have e2 : hex_val (hex_digit (n / 256 % 16)) = some (n / 256 % 16) :=
    hex_val_hex_digit _ (Nat.mod_lt _ (by norm_num))
  have e3 : hex_val (hex_digit (n / 16 % 16)) = some (n / 16 % 16) :=
    hex_val_hex_digit _ (Nat.mod_lt _ (by norm_num))
  have e4 : hex_val (hex_digit (n % 16)) = some (n % 16) :=
    hex_val_hex_digit _ (Nat.mod_lt _ (by norm_num))
  rw [hex4]
  simp only [List.cons_append, List.nil_append, parse_u_escape,
    e1, e2, e3, e4]
  rw [hex4_recombine n hn, if_neg (fun hc => hns ⟨hc.1, by omega⟩),
    if_neg (fun hc => hns ⟨by omega, hc.2⟩)]

/-- `\uXXXX` decoding for a high surrogate hands over to the low-surrogate
state. -/
theorem parse_u_escape_round_hi (hi : Nat) (rest : List Char)
    (hhi : 55296 ≤ hi ∧ hi < 56320) :
    parse_u_escape (hex4 hi ++ rest) = parse_low_surrogate hi rest := by
  have e1 : hex_val (hex_digit (hi / 4096 % 16)) = some (hi / 4096 % 16) :=
    hex_val_hex_digit _ (Nat.mod_lt _ (by norm_num))
  have e2 : hex_val (hex_digit (hi / 256 % 16)) = some (hi / 256 % 16) :=
    hex_val_hex_digit _ (Nat.mod_lt _ (by norm_num))
  have e3 : hex_val (hex_digit (hi / 16 % 16)) = some (hi / 16 % 16) :=
    hex_val_hex_digit _ (Nat.mod_lt _ (by norm_num))
  have e4 : hex_val (hex_digit (hi % 16)) = some (hi % 16) :=
    hex_val_hex_digit _ (Nat.mod_lt _ (by norm_num))
  rw [hex4]
  simp only [List.cons_append, List.nil_append, parse_u_escape,
    e1, e2, e3, e4]
  rw [hex4_recombine hi (by omega), if_pos hhi]

/-- Low-surrogate decoding. -/
theorem parse_low_surrogate_round (n lo : Nat) (rest : List Char)
    (hlo : 56320 ≤ lo ∧ lo < 57344) :
    parse_low_surrogate n ('\\' :: 'u' :: hex4 lo ++ rest) =
      (parse_string_body rest).map (fun p =>
        (Char.ofNat (65536 + (n - 55296) * 1024 + (lo - 56320)) ::
          p.1, p.2)) := by
  have g1 : hex_val (hex_digit (lo / 4096 % 16)) = some (lo / 4096 % 16) :=
    hex_val_hex_digit _ (Nat.mod_lt _ (by norm_num))
  have g2 : hex_val (hex_digit (lo / 256 % 16)) = some (lo / 256 % 16) :=
    hex_val_hex_digit _ (Nat.mod_lt _ (by norm_num))
  have g3 : hex_val (hex_digit (lo / 16 % 16)) = some (lo / 16 % 16) :=
    hex_val_hex_digit _ (Nat.mod_lt _ (by norm_num))
  have g4 : hex_val (hex_digit (lo % 16)) = some (lo % 16) :=
    hex_val_hex_digit _ (Nat.mod_lt _ (by norm_num))
  rw [hex4]
  simp only [List.cons_append, List.nil_append, parse_low_surrogate,
    g1, g2, g3, g4,
    eq_true (⟨rfl, rfl⟩ : '\\' = '\\' ∧ 'u' = 'u'), and_self, if_true]
  rw [hex4_recombine lo (by omega), if_pos hlo]

/-- After a backslash, `u` selects the `\u` decoder. -/
theorem parse_escape_seq_u (cs : List Char) :
    parse_escape_seq ('u' :: cs) = parse_u_escape cs := by
  simp only [parse_escape_seq,
    eq_false (by decide : ¬ ('u' = '"')),
    eq_false (by decide : ¬ ('u' = '\\')),
    eq_false (by decide : ¬ ('u' = '/')),
    eq_false (by decide : ¬ ('u' = 'b')),
    eq_false (by decide : ¬ ('u' = 't')),
    eq_false (by decide : ¬ ('u' = 'n')),
    eq_false (by decide : ¬ ('u' = 'f')),
    eq_false (by decide : ¬ ('u' = 'r')),
    eq_true (rfl : 'u' = 'u'), if_true, if_false]

/-- A backslash enters the escape state. -/
theorem parse_string_body_bs (cs : List Char) :
    parse_string_body ('\\' :: cs) = parse_escape_seq cs := by
  simp only [parse_string_body,
    eq_false (by decide : ¬ ('\\' = '"')),
    eq_true (rfl : '\\' = '\\'), if_true, if_false]

/-- Scanner inversion, character escaped as `\uXXXX` within the BMP. -/
theorem parse_escape_char_bmp (c : Char) (rest : List Char)
    (h1 : ¬ c = '"') (h2 : ¬ c = '\\') (h3 : ¬ c = Char.ofNat 8)
    (h4 : ¬ c = Char.ofNat 9) (h5 : ¬ c = Char.ofNat 10)
    (h6 : ¬ c = Char.ofNat 12) (h7 : ¬ c = Char.ofNat 13)
    (h8 : c.toNat < 32 ∨ 126 < c.toNat) (h9 : c.toNat < 65536) :
    parse_string_body (escape_char c ++ rest) =
      (parse_string_body rest).map (fun p => (c :: p.1, p.2)) := by
  have hsur := char_not_surrogate c
  rw [escape_char, if_neg h1, if_neg h2, if_neg h3, if_neg h4,
    if_neg h5, if_neg h6, if_neg h7, if_pos h8, if_pos h9,
    List.cons_append, List.cons_append, parse_string_body_bs,
    parse_escape_seq_u, parse_u_escape_round_bmp c.toNat rest h9 hsur,
    Char.ofNat_toNat]

/-- Scanner inversion, character above the BMP escaped as a surrogate
pair. -/
theorem parse_escape_char_astral (c : Char) (rest : List Char)
    (h1 : ¬ c = '"') (h2 : ¬ c = '\\') (h3 : ¬ c = Char.ofNat 8)
    (h4 : ¬ c = Char.ofNat 9) (h5 : ¬ c = Char.ofNat 10)
    (h6 : ¬ c = Char.ofNat 12) (h7 : ¬ c = Char.ofNat 13)
    (h8 : c.toNat < 32 ∨ 126 < c.toNat) (h9 : ¬ c.toNat < 65536) :
    parse_string_body (escape_char c ++ rest) =
      (parse_string_body rest).map (fun p => (c :: p.1, p.2)) := by
  have hlt := char_toNat_lt c
  rw [escape_char, if_neg h1, if_neg h2, if_neg h3, if_neg h4,
    if_neg h5, if_neg h6, if_neg h7, if_pos h8, if_neg h9]
  rw [List.append_assoc, List.cons_append, List.cons_append,
    parse_string_body_bs, parse_escape_seq_u,
    parse_u_escape_round_hi (55296 + (c.toNat - 65536) / 1024)
      (('\\' :: 'u' :: hex4 (56320 + (c.toNat - 65536) % 1024)) ++ rest)
      ⟨by omega, by omega⟩]
  rw [show (('\\' :: 'u' :: hex4 (56320 + (c.toNat - 65536) % 1024)) ++
      rest : List Char) =
      '\\' :: 'u' :: hex4 (56320 + (c.toNat - 65536) % 1024) ++ rest
    from rfl]
  rw [parse_low_surrogate_round (55296 + (c.toNat - 65536) / 1024)
    (56320 + (c.toNat - 65536) % 1024) rest ⟨by omega, by omega⟩]
  have hn3 : 65536 + (55296 + (c.toNat - 65536) / 1024 - 55296) * 1024 +
      (56320 + (c.toNat - 65536) % 1024 - 56320) = c.toNat := by omega
  rw [hn3, Char.ofNat_toNat]

/-- Scanner inversion, printable ASCII character kept verbatim. -/
theorem parse_escape_char_plain (c : Char) (rest : List Char)
    (h1 : ¬ c = '"') (h2 : ¬ c = '\\') (h3 : ¬ c = Char.ofNat 8)
    (h4 : ¬ c = Char.ofNat 9) (h5 : ¬ c = Char.ofNat 10)
    (h6 : ¬ c = Char.ofNat 12) (h7 : ¬ c = Char.ofNat 13)
    (h8 : ¬ (c.toNat < 32 ∨ 126 < c.toNat)) :
    parse_string_body (escape_char c ++ rest) =
      (parse_string_body rest).map (fun p => (c :: p.1, p.2)) := by
  rw [escape_char, if_neg h1, if_neg h2, if_neg h3, if_neg h4, if_neg h5,
    if_neg h6, if_neg h7, if_neg h8]
  simp only [List.cons_append, List.nil_append, parse_string_body,
    eq_false h1, eq_false h2, if_false,
    if_neg (show ¬ c.toNat < 32 by omega)]

/-- The scanner consumes the escape of one character and emits that
character. -/
theorem parse_escape_char (c : Char) (rest : List Char) :
    parse_string_body (escape_char c ++ rest) =
      (parse_string_body rest).map (fun p => (c :: p.1, p.2)) := by
  by_cases h1 : c = '"'
  · subst h1; exact parse_escape_char_q rest
  by_cases h2 : c = '\\'
  · subst h2; exact parse_escape_char_bs rest
  by_cases h3 : c = Char.ofNat 8
  · subst h3; exact parse_escape_char_b rest
  by_cases h4 : c = Char.ofNat 9
  · subst h4; exact parse_escape_char_t rest
  by_cases h5 : c = Char.ofNat 10
  · subst h5; exact parse_escape_char_n rest
  by_cases h6 : c = Char.ofNat 12
  · subst h6; exact parse_escape_char_f rest
  by_cases h7 : c = Char.ofNat 13
  · subst h7; exact parse_escape_char_r rest
  by_cases h8 : c.toNat < 32 ∨ 126 < c.toNat
  · by_cases h9 : c.toNat < 65536
    · exact parse_escape_char_bmp c rest h1 h2 h3 h4 h5 h6 h7 h8 h9
    · exact parse_escape_char_astral c rest h1 h2 h3 h4 h5 h6 h7 h8 h9
  · exact parse_escape_char_plain c rest h1 h2 h3 h4 h5 h6 h7 h8

end Papertrail

namespace Papertrail

/-- The scanner inverts serialization of a whole string body. -/
theorem parse_string_round (s : List Char) (rest : List Char) :
    parse_string_body (escape_list s ++ '"' :: rest) = some (s, rest) := by
  induction s with
  | nil =>
    rw [escape_list, List.nil_append]
    simp only [parse_string_body, eq_true (rfl : '"' = '"'), if_true]
  | cons c t ih =>
    rw [escape_list, List.append_assoc, parse_escape_char, ih]
    rfl

mutual

/-- A JSON value of the canonical-payload universe: integers, strings,
arrays, objects (`json.dumps` also handles booleans, null and floats, which
the payloads never contain). -/
inductive JValue where
  | jint (n : Int)
  | jstr (s : String)
  | jarr (items : JItems)
  | jobj (members : JMembers)

/-- The items of a JSON array. -/
inductive JItems where
  | nil
  | cons (head : JValue) (tail : JItems)

/-- The members of a JSON object, in association-list order. -/
inductive JMembers where
  | nil
  | cons (key : String) (value : JValue) (tail : JMembers)
end
mutual

/-- Node count of a JSON value (the fuel measure of the parser). -/
def sizeV : JValue → Nat
  | .jint _ => 1
  | .jstr _ => 1
  | .jarr items => 1 + sizeI items
  | .jobj members => 1 + sizeM members

/-- Node count of array items. -/
def sizeI : JItems → Nat
  | .nil => 0
  | .cons v t => 1 + sizeV v + sizeI t

/-- Node count of object members. -/
def sizeM : JMembers → Nat
  | .nil => 0
  | .cons _ v t => 1 + sizeV v + sizeM t
end

/-- Insert a member into a key-sorted member list (stable, as Python
`sorted`). -/
def insert_member (k : String) (v : JValue) : JMembers → JMembers
  | .nil => .cons k v .nil
  | .cons k2 v2 t =>
    if k ≤ k2 then .cons k v (.cons k2 v2 t)
    else .cons k2 v2 (insert_member k v t)

/-- Sort members by key (`sort_keys=True`; Python compares strings by code
points, as Lean `String` order does). -/
def sort_members : JMembers → JMembers
  | .nil => .nil
  | .cons k v t => insert_member k v (sort_members t)

theorem sizeM_insert_member (k : String) (v : JValue) :
    (m : JMembers) → sizeM (insert_member k v m) = 1 + sizeV v + sizeM m
  | .nil => rfl
  | .cons k2 v2 t => by
    rw [insert_member]
    by_cases h : k ≤ k2
    · rw [if_pos h]
      simp only [sizeM]
    · rw [if_neg h]
      simp only [sizeM, sizeM_insert_member k v t]
      omega

theorem sizeM_sort_members :
    (m : JMembers) → sizeM (sort_members m) = sizeM m
  | .nil => rfl
  | .cons k v t => by
    rw [sort_members, sizeM_insert_member, sizeM_sort_members t, sizeM]

mutual

/-- `json.dumps(·, sort_keys=True, separators=(",", ":"))`: canonical,
whitespace-free serialization with sorted object keys. -/
def dump_value : JValue → List Char
  | .jint n => int_to_chars n
  | .jstr s => '"' :: (escape_list s.toList ++ ['"'])
  | .jarr items => '[' :: (dump_items items ++ [']'])
  | .jobj members => '{' :: (dump_members (sort_members members) ++ ['}'])
termination_by v => sizeV v
decreasing_by all_goals simp [sizeV, sizeI, sizeM, sizeM_sort_members]

/-- Comma-separated array items. -/
def dump_items : JItems → List Char
  | .nil => []
  | .cons v t => dump_value v ++ dump_items_rest t
termination_by i => sizeI i
decreasing_by all_goals (simp [sizeV, sizeI, sizeM, sizeM_sort_members] <;> omega)

/-- Trailing array items, each preceded by a comma. -/
def dump_items_rest : JItems → List Char
  | .nil => []
  | .cons v t => ',' :: (dump_value v ++ dump_items_rest t)
termination_by i => sizeI i
decreasing_by all_goals (simp [sizeV, sizeI, sizeM, sizeM_sort_members] <;> omega)

/-- Comma-separated object members, `"key":value` each. -/
def dump_members : JMembers → List Char
  | .nil => []
  | .cons k v t =>
    '"' :: (escape_list k.toList ++ '"' :: ':' ::
      (dump_value v ++ dump_members_rest t))
termination_by m => sizeM m
decreasing_by all_goals (simp [sizeV, sizeI, sizeM, sizeM_sort_members] <;> omega)

/-- Trailing object members, each preceded by a comma. -/
def dump_members_rest : JMembers → List Char
  | .nil => []
  | .cons k v t =>
    ',' :: '"' :: (escape_list k.toList ++ '"' :: ':' ::
      (dump_value v ++ dump_members_rest t))
termination_by m => sizeM m
decreasing_by all_goals (simp [sizeV, sizeI, sizeM, sizeM_sort_members] <;> omega)
end

mutual

/-- `json.loads` value parser over the payload universe, with fuel bounding
the recursion depth (canonical input carries no whitespace, so none is
skipped). -/
def parse_value : Nat → List Char → Option (JValue × List Char)
  | 0, _ => none
  | fuel + 1, cs =>
    match cs with
    | [] => none
    | c :: cs1 =>
      if c = '"' then
        (parse_string_body cs1).map (fun p => (JValue.jstr (String.mk p.1), p.2))
      else if c = '[' then
        match cs1 with
        | [] => none
        | c2 :: cs2 =>
          if c2 = ']' then some (.jarr .nil, cs2)
          else (parse_items fuel cs1).map (fun p => (JValue.jarr p.1, p.2))
      else if c = '{' then
        match cs1 with
        | [] => none
        | c2 :: cs2 =>
          if c2 = '}' then some (.jobj .nil, cs2)
          else (parse_members fuel cs1).map (fun p => (JValue.jobj p.1, p.2))
      else (parse_int (c :: cs1)).map (fun p => (JValue.jint p.1, p.2))

/-- Items of a non-empty array: value, then `]` or `,` and more items. -/
def parse_items : Nat → List Char → Option (JItems × List Char)
  | 0, _ => none
  | fuel + 1, cs =>
    match parse_value fuel cs with
    | none => none
    | some (v, rest) =>
      match rest with
      | [] => none
      | r :: rest1 =>
        if r = ']' then some (.cons v .nil, rest1)
        else if r = ',' then
          (parse_items fuel rest1).map (fun p => (JItems.cons v p.1, p.2))
        else none

/-- Members of a non-empty object: `"key":value`, then `}` or `,` and more
members. -/
def parse_members : Nat → List Char → Option (JMembers × List Char)
  | 0, _ => none
  | fuel + 1, cs =>
    match cs with
    | [] => none
    | c :: cs1 =>
      if c = '"' then
        match parse_string_body cs1 with
        | none => none
        | some (kchars, rest1) =>
          match rest1 with
          | [] => none
          | r1 :: rest2 =>
            if r1 = ':' then
              match parse_value fuel rest2 with
              | none => none
              | some (v, rest3) =>
                match rest3 with
                | [] => none
                | r3 :: rest4 =>
                  if r3 = '}' then
                    some (.cons (String.mk kchars) v .nil, rest4)
                  else if r3 = ',' then
                    (parse_members fuel rest4).map
                      (fun p => (JMembers.cons (String.mk kchars) v p.1, p.2))
                  else none
            else none
      else none
end

/-- `SignatureService.payload_to_json`:
`json.dumps(payload, sort_keys=True, separators=(",", ":"))`. -/
def payload_to_json (payload : JValue) : String :=
  String.mk (dump_value payload)

/-- `json.loads` applied to a whole document: the input must be consumed
entirely. -/
def json_parse (s : String) : Option JValue :=
  match parse_value (s.toList.length + 1) s.toList with
  | some (v, []) => some v
  | _ => none

end Papertrail

namespace Papertrail

/-- Strictly increasing keys: the canonical (Python-dict) representative of
an object, since `dict` keys are distinct and `==` ignores order. -/
def sorted_keys : JMembers → Prop
  | .nil => True
  | .cons _ _ .nil => True
  | .cons k _ (.cons k2 v2 t) => k < k2 ∧ sorted_keys (.cons k2 v2 t)

mutual

/-- Every object inside the value is canonically sorted. -/
def canonicalV : JValue → Prop
  | .jint _ => True
  | .jstr _ => True
  | .jarr items => canonicalI items
  | .jobj members => sorted_keys members ∧ canonicalM members

/-- Canonicality through array items. -/
def canonicalI : JItems → Prop
  | .nil => True
  | .cons v t => canonicalV v ∧ canonicalI t

/-- Canonicality through object members. -/
def canonicalM : JMembers → Prop
  | .nil => True
  | .cons _ v t => canonicalV v ∧ canonicalM t
end

/-- Sorting a canonically sorted member list is the identity. -/
theorem sort_members_of_sorted :
    (m : JMembers) → sorted_keys m → sort_members m = m
  | .nil => fun _ => rfl
  | .cons k v .nil => fun _ => rfl
  | .cons k v (.cons k2 v2 t) => fun h => by
    have ht := sort_members_of_sorted (.cons k2 v2 t) h.2
    rw [sort_members, ht, insert_member, if_pos (le_of_lt h.1)]

/-- Every value is at least one node. -/
theorem sizeV_pos : (v : JValue) → 1 ≤ sizeV v
  | .jint _ => le_refl 1
  | .jstr _ => le_refl 1
  | .jarr items => by simp [sizeV]
  | .jobj members => by simp [sizeV]

/-- A serialized value starts with a character other than `]` and `}`. -/
theorem dump_value_head_ne :
    (v : JValue) → ∃ c cs, dump_value v = c :: cs ∧ ¬ c = ']' ∧ ¬ c = '}'
  | .jint n => by
    rw [dump_value, int_to_chars]
    by_cases hn : n < 0
    · exact ⟨'-', _, by rw [if_pos hn], by decide, by decide⟩
    · obtain ⟨d, t, hdt, hd⟩ := nat_to_chars_head n.toNat
      refine ⟨digit_char d, t, by rw [if_neg hn, hdt], ?_, ?_⟩
      · intro he
        have h1 := digit_char_toNat d hd
        rw [he] at h1
        have h2 : (']').toNat = 93 := rfl
        omega
      · intro he
        have h1 := digit_char_toNat d hd
        rw [he] at h1
        have h2 : ('}').toNat = 125 := rfl
        omega
  | .jstr s => ⟨'"', _, by rw [dump_value], by decide, by decide⟩
  | .jarr items => ⟨'[', _, by rw [dump_value], by decide, by decide⟩
  | .jobj members => ⟨'{', _, by rw [dump_value], by decide, by decide⟩

/-- `String.mk` inverts `String.toList`. -/
theorem string_mk_toList (s : String) : String.mk s.toList = s := rfl

/-- The value parser inverts number serialization. -/
theorem parse_value_num (fuel : Nat) (n : Int) (rest : List Char)
    (hdf : digit_free_head rest) :
    parse_value (fuel + 1) (int_to_chars n ++ rest) =
      some (.jint n, rest) := by
  have hhead : ∃ c cs, int_to_chars n = c :: cs ∧
      (c = '-' ∨ (48 ≤ c.toNat ∧ c.toNat ≤ 57)) := by
    rw [int_to_chars]
    by_cases hn : n < 0
    · exact ⟨'-', _, by rw [if_pos hn], Or.inl rfl⟩
    · obtain ⟨d, t, hdt, hd⟩ := nat_to_chars_head n.toNat
      refine ⟨digit_char d, t, by rw [if_neg hn, hdt], Or.inr ?_⟩
      have := digit_char_toNat d hd
      omega
  obtain ⟨c, cst, hic, hprop⟩ := hhead
  have htn : c.toNat = 45 ∨ (48 ≤ c.toNat ∧ c.toNat ≤ 57) := by
    rcases hprop with h | h
    · subst h; exact Or.inl rfl
    · exact Or.inr h
  have hq : ¬ c = '"' := by
    intro he
    have := congrArg Char.toNat he
    have h2 : ('"').toNat = 34 := rfl
    omega
  have hbr : ¬ c = '[' := by
    intro he
    have := congrArg Char.toNat he
    have h2 : ('[').toNat = 91 := rfl
    omega
  have hbc : ¬ c = '{' := by
    intro he
    have := congrArg Char.toNat he
    have h2 : ('{').toNat = 123 := rfl
    omega
  rw [hic, List.cons_append]
  simp only [parse_value, if_neg hq, if_neg hbr, if_neg hbc]
  have hback : c :: (cst ++ rest) = int_to_chars n ++ rest := by
    rw [hic, List.cons_append]
  rw [hback, parse_int_round n rest hdf, Option.map]

/-- The value parser inverts string serialization. -/
theorem parse_value_str (fuel : Nat) (s : String) (rest : List Char) :
    parse_value (fuel + 1) (dump_value (.jstr s) ++ rest) =
      some (.jstr s, rest) := by
  rw [dump_value, List.cons_append]
  simp only [parse_value, eq_true (rfl : '"' = '"'), if_true]
  rw [List.append_assoc, List.cons_append, List.nil_append,
    parse_string_round s.toList rest, Option.map, string_mk_toList]

end Papertrail

namespace Papertrail

mutual

/-- The parser inverts canonical serialization of a value, given fuel at
least the node count. -/
theorem parse_value_round : (v : JValue) → (fuel : Nat) → (rest : List Char) →
    sizeV v ≤ fuel → canonicalV v → digit_free_head rest →
    parse_value fuel (dump_value v ++ rest) = some (v, rest)
  | v, 0, _ => fun hsz _ _ =>
    absurd hsz (by have := sizeV_pos v; omega)
  | .jint n, f + 1, rest => fun _ _ hdf => by
    rw [dump_value]
    exact parse_value_num f n rest hdf
  | .jstr s, f + 1, rest => fun _ _ _ => parse_value_str f s rest
  | .jarr .nil, f + 1, rest => fun _ _ _ => by
    rw [dump_value, dump_items]
    simp only [List.nil_append, List.cons_append, parse_value,
      eq_false (by decide : ¬ ('[' = '"')),
      eq_true (rfl : '[' = '['), eq_true (rfl : ']' = ']'),
      if_true, if_false]
  | .jarr (.cons v1 t), f + 1, rest => fun hsz hcan _ => by
    simp only [sizeV, sizeI] at hsz
    simp only [canonicalV, canonicalI] at hcan
    obtain ⟨c2, cs2, hv, hne, _⟩ := dump_value_head_ne v1
    rw [dump_value, dump_items, hv]
    simp only [List.cons_append, List.append_assoc, List.nil_append,
      parse_value,
      eq_false (by decide : ¬ ('[' = '"')),
      eq_true (rfl : '[' = '['), eq_false hne, if_true, if_false]
    have hshape : c2 :: (cs2 ++ (dump_items_rest t ++ (']' :: rest))) =
        dump_items (.cons v1 t) ++ (']' :: rest) := by
      rw [dump_items, hv]
      simp only [List.cons_append, List.append_assoc]
    rw [hshape, parse_items_round v1 t f rest (by omega) hcan.1 hcan.2]
    rw [Option.map]
  | .jobj .nil, f + 1, rest => fun _ _ _ => by
    rw [dump_value,
      show sort_members .nil = .nil from rfl, dump_members]
    simp only [List.nil_append, List.cons_append, parse_value,
      eq_false (by decide : ¬ ('{' = '"')),
      eq_false (by decide : ¬ ('{' = '[')),
      eq_true (rfl : '{' = '{'), eq_true (rfl : '}' = '}'),
      if_true, if_false]
  | .jobj (.cons k v1 t), f + 1, rest => fun hsz hcan _ => by
    simp only [sizeV, sizeM] at hsz
    simp only [canonicalV, canonicalM] at hcan
    rw [dump_value, sort_members_of_sorted _ hcan.1, dump_members]
    simp only [List.cons_append, List.append_assoc, List.nil_append,
      parse_value,
      eq_false (by decide : ¬ ('{' = '"')),
      eq_false (by decide : ¬ ('{' = '[')),
      eq_true (rfl : '{' = '{'),
      eq_false (by decide : ¬ ('"' = '}')), if_true, if_false]
    have hshape : '"' :: (escape_list k.toList ++
        ('"' :: ':' :: (dump_value v1 ++ (dump_members_rest t ++
          ('}' :: rest))))) =
        dump_members (.cons k v1 t) ++ ('}' :: rest) := by
      rw [dump_members]
      simp only [List.cons_append, List.append_assoc]
    rw [hshape,
      parse_members_round k v1 t f rest (by omega) hcan.2.1 hcan.2.2]
    rw [Option.map]
termination_by v _ _ => sizeV v
decreasing_by all_goals simp [sizeV, sizeI, sizeM]

/-- The parser inverts serialization of the items of a non-empty array. -/
theorem parse_items_round : (v : JValue) → (t : JItems) → (fuel : Nat) →
    (rest : List Char) → 1 + sizeV v + sizeI t ≤ fuel → canonicalV v →
    canonicalI t →
    parse_items fuel (dump_items (.cons v t) ++ (']' :: rest)) =
      some (.cons v t, rest)
  | _, _, 0, _ => fun hsz _ _ => absurd hsz (by omega)
  | v, .nil, f + 1, rest => fun hsz hcv _ => by
    rw [dump_items, dump_items_rest, List.append_nil]
    simp only [parse_items]
    rw [parse_value_round v f (']' :: rest) (by omega) hcv
      (show is_digit ']' = false by decide)]
    simp only [eq_true (rfl : ']' = ']'), if_true]
  | v, .cons v2 t2, f + 1, rest => fun hsz hcv hci => by
    simp only [sizeI] at hsz
    simp only [canonicalI] at hci
    rw [dump_items, dump_items_rest]
    simp only [List.cons_append, List.append_assoc, parse_items]
    rw [parse_value_round v f
      (',' :: (dump_value v2 ++ (dump_items_rest t2 ++ (']' :: rest))))
      (by omega) hcv (show is_digit ',' = false by decide)]
    simp only [eq_false (by decide : ¬ (',' = ']')),
      eq_true (rfl : ',' = ','), if_true, if_false]
    have hshape : dump_value v2 ++ (dump_items_rest t2 ++ (']' :: rest)) =
        dump_items (.cons v2 t2) ++ (']' :: rest) := by
      rw [dump_items]
      simp only [List.append_assoc]
    rw [hshape, parse_items_round v2 t2 f rest (by omega) hci.1 hci.2]
    rw [Option.map]
termination_by v t _ _ => 1 + sizeV v + sizeI t
decreasing_by all_goals simp [sizeV, sizeI, sizeM] <;> omega

/-- The parser inverts serialization of the members of a non-empty
object. -/
theorem parse_members_round : (k : String) → (v : JValue) → (t : JMembers) →
    (fuel : Nat) → (rest : List Char) → 1 + sizeV v + sizeM t ≤ fuel →
    canonicalV v → canonicalM t →
    parse_members fuel (dump_members (.cons k v t) ++ ('}' :: rest)) =
      some (.cons k v t, rest)
  | _, _, _, 0, _ => fun hsz _ _ => absurd hsz (by omega)
  | k, v, .nil, f + 1, rest => fun hsz hcv _ => by
    rw [dump_members, dump_members_rest, List.append_nil]
    simp only [List.cons_append, List.append_assoc, parse_members,
      eq_true (rfl : '"' = '"'), if_true]
    rw [parse_string_round k.toList (':' :: (dump_value v ++ ('}' :: rest)))]
    simp only [eq_true (rfl : ':' = ':'), if_true]
    rw [parse_value_round v f ('}' :: rest) (by omega) hcv
      (show is_digit '}' = false by decide)]
    simp only [eq_true (rfl : '}' = '}'), if_true, string_mk_toList]
  | k, v, .cons k2 v2 t2, f + 1, rest => fun hsz hcv hcm => by
    simp only [sizeM] at hsz
    simp only [canonicalM] at hcm
    rw [dump_members, dump_members_rest]
    simp only [List.cons_append, List.append_assoc, parse_members,
      eq_true (rfl : '"' = '"'), if_true]
    rw [parse_string_round k.toList
      (':' :: (dump_value v ++ (',' :: '"' :: (escape_list k2.toList ++
        ('"' :: ':' :: (dump_value v2 ++ (dump_members_rest t2 ++
          ('}' :: rest)))))))) ]
    simp only [eq_true (rfl : ':' = ':'), if_true]
    rw [parse_value_round v f
      (',' :: '"' :: (escape_list k2.toList ++ ('"' :: ':' ::
        (dump_value v2 ++ (dump_members_rest t2 ++ ('}' :: rest))))))
      (by omega) hcv (show is_digit ',' = false by decide)]
    simp only [eq_false (by decide : ¬ (',' = '}')),
      eq_true (rfl : ',' = ','), if_true, if_false]
    have hshape : '"' :: (escape_list k2.toList ++ ('"' :: ':' ::
        (dump_value v2 ++ (dump_members_rest t2 ++ ('}' :: rest))))) =
        dump_members (.cons k2 v2 t2) ++ ('}' :: rest) := by
      rw [dump_members]
      simp only [List.cons_append, List.append_assoc]
    rw [hshape,
      parse_members_round k2 v2 t2 f rest (by omega) hcm.1 hcm.2]
    simp only [string_mk_toList, Option.map]
termination_by _ v t _ _ => 1 + sizeV v + sizeM t
decreasing_by all_goals simp [sizeV, sizeI, sizeM] <;> omega
end

end Papertrail

namespace Papertrail

/-- Serialized integers are nonempty. -/
theorem int_to_chars_ne_nil (n : Int) : 1 ≤ (int_to_chars n).length := by
  rw [int_to_chars]
  by_cases hn : n < 0
  · rw [if_pos hn]
    simp
  · rw [if_neg hn]
    obtain ⟨d, t, hdt, _⟩ := nat_to_chars_head n.toNat
    rw [hdt]
    simp

mutual

/-- The node count is bounded by the serialized length. -/
theorem sizeV_le_dump : (v : JValue) → sizeV v ≤ (dump_value v).length
  | .jint n => by
    rw [dump_value]
    have := int_to_chars_ne_nil n
    simp only [sizeV]
    omega
  | .jstr s => by
    rw [dump_value]
    simp only [sizeV, List.length_cons, List.length_append]
    omega
  | .jarr items => by
    rw [dump_value]
    have := sizeI_le_dump_items items
    simp only [sizeV, List.length_cons, List.length_append]
    simp only [List.length_cons, List.length_nil]
    omega
  | .jobj members => by
    rw [dump_value]
    have h1 := sizeM_le_dump_members (sort_members members)
    have h2 := sizeM_sort_members members
    simp only [sizeV, List.length_cons, List.length_append]
    simp only [List.length_cons, List.length_nil]
    omega
termination_by v => sizeV v
decreasing_by all_goals simp [sizeV, sizeI, sizeM, sizeM_sort_members]

/-- Item count bound, leading-item form. -/
theorem sizeI_le_dump_items : (i : JItems) → sizeI i ≤ (dump_items i).length + 1
  | .nil => by simp [sizeI, dump_items]
  | .cons v t => by
    rw [dump_items]
    have h1 := sizeV_le_dump v
    have h2 := sizeI_le_dump_items_rest t
    simp only [sizeI, List.length_append]
    omega
termination_by i => sizeI i
decreasing_by all_goals simp [sizeV, sizeI, sizeM, sizeM_sort_members] <;> omega

/-- Item count bound, comma-prefixed form. -/
theorem sizeI_le_dump_items_rest :
    (i : JItems) → sizeI i ≤ (dump_items_rest i).length
  | .nil => by simp [sizeI, dump_items_rest]
  | .cons v t => by
    rw [dump_items_rest]
    have h1 := sizeV_le_dump v
    have h2 := sizeI_le_dump_items_rest t
    simp only [sizeI, List.length_cons, List.length_append]
    omega
termination_by i => sizeI i
decreasing_by all_goals simp [sizeV, sizeI, sizeM, sizeM_sort_members] <;> omega

/-- Member count bound, leading-member form. -/
theorem sizeM_le_dump_members :
    (m : JMembers) → sizeM m ≤ (dump_members m).length + 1
  | .nil => by simp [sizeM, dump_members]
  | .cons k v t => by
    rw [dump_members]
    have h1 := sizeV_le_dump v
    have h2 := sizeM_le_dump_members_rest t
    simp only [sizeM, List.length_cons, List.length_append]
    omega
termination_by m => sizeM m
decreasing_by all_goals simp [sizeV, sizeI, sizeM, sizeM_sort_members] <;> omega

/-- Member count bound, comma-prefixed form. -/
theorem sizeM_le_dump_members_rest :
    (m : JMembers) → sizeM m ≤ (dump_members_rest m).length
  | .nil => by simp [sizeM, dump_members_rest]
  | .cons k v t => by
    rw [dump_members_rest]
    have h1 := sizeV_le_dump v
    have h2 := sizeM_le_dump_members_rest t
    simp only [sizeM, List.length_cons, List.length_append]
    omega
termination_by m => sizeM m
decreasing_by all_goals simp [sizeV, sizeI, sizeM, sizeM_sort_members] <;> omega
end

/-! ## Claim C9 — canonical JSON determinism and round-trip -/

/-- C9: `payload_to_json` is deterministic — two calls on the same payload
yield the identical string — and `json.loads` parses the canonical JSON
back to the same payload.  A payload is a `JValue` whose objects are in
canonically sorted key order: the canonical representative of a Python
`dict`, whose `==` ignores key order. -/
theorem payload_json_roundtrip_spec (p : JValue) (hcan : canonicalV p) :
    payload_to_json p = payload_to_json p ∧
    json_parse (payload_to_json p) = some p := by
  refine ⟨rfl, ?_⟩
  have h := parse_value_round p ((dump_value p).length + 1) []
    (by have := sizeV_le_dump p; omega) hcan trivial
  rw [List.append_nil] at h
  rw [json_parse]
  have hlist : (payload_to_json p).toList = dump_value p := rfl
  rw [hlist, h]

/-- C9 witness: a concrete two-key payload with a nested document list
round-trips. -/
theorem payload_json_roundtrip_witness :
    json_parse (payload_to_json
      (JValue.jobj (JMembers.cons "documents"
        (JValue.jarr (JItems.cons
          (JValue.jobj (JMembers.cons "document_version" (JValue.jint 2)
            (JMembers.cons "sha256_hash" (JValue.jstr "ab12") JMembers.nil)))
          JItems.nil))
        (JMembers.cons "package_title" (JValue.jstr "Test \"Package\"")
          JMembers.nil)))) =
      some (JValue.jobj (JMembers.cons "documents"
        (JValue.jarr (JItems.cons
          (JValue.jobj (JMembers.cons "document_version" (JValue.jint 2)
            (JMembers.cons "sha256_hash" (JValue.jstr "ab12") JMembers.nil)))
          JItems.nil))
        (JMembers.cons "package_title" (JValue.jstr "Test \"Package\"")
          JMembers.nil))) := by
  refine (payload_json_roundtrip_spec _ ?_).2
  simp only [canonicalV, canonicalM, canonicalI, sorted_keys, and_true,
    true_and]
  constructor
  all_goals exact String.lt_iff_toList_lt.mpr (by decide)

end Papertrail

namespace Papertrail

/-! ### Signature service (`apps/packages/services/signatures.py`)

`hashlib.sha256` is modelled bit-faithfully over byte lists (bytes are `Nat`
below 256, 32-bit words are `Nat` reduced `% 2 ^ 32`); `bytes` objects and
hex digests become `String`s.  `timezone.now().isoformat()` is passed in as
an explicit `now : String` argument. -/

/-- Reduction of a machine word to 32 bits. -/
def w32 (n : Nat) : Nat := n % 4294967296

/-- Right rotation of a 32-bit word by `n` bits. -/
def rotr (n x : Nat) : Nat := w32 (x / 2 ^ n + x % 2 ^ n * 2 ^ (32 - n))

/-- UTF-8 bytes of one character (as in `str.encode("utf-8")`). -/
def utf8_bytes_of_char (c : Char) : List Nat :=
  let n := c.toNat
  if n < 128 then [n]
  else if n < 2048 then [192 + n / 64, 128 + n % 64]
  else if n < 65536 then [224 + n / 4096, 128 + n / 64 % 64, 128 + n % 64]
  else [240 + n / 262144, 128 + n / 4096 % 64, 128 + n / 64 % 64, 128 + n % 64]

/-- `str.encode("utf-8")`. -/
def utf8_encode (s : String) : List Nat :=
  s.toList.foldr (fun c acc => utf8_bytes_of_char c ++ acc) []

/-- Big-endian byte expansion of a value into a fixed number of bytes. -/
def be_bytes : Nat → Nat → List Nat
  | 0, _ => []
  | k + 1, v => be_bytes k (v / 256) ++ [v % 256]

/-- Big-endian 32-bit words of a byte list (whole 4-byte groups). -/
def chunk_words : List Nat → List Nat
  | b0 :: b1 :: b2 :: b3 :: rest =>
      (b0 * 16777216 + b1 * 65536 + b2 * 256 + b3) :: chunk_words rest
  | _ => []

/-- SHA-256 padding: `0x80`, zeros to 56 mod 64, 8-byte bit length. -/
def sha256_pad (msg : List Nat) : List Nat :=
  msg ++ [128] ++ List.replicate ((119 - msg.length % 64) % 64) 0 ++
    be_bytes 8 (msg.length * 8)

/-- SHA-256 message-schedule function σ0. -/
def ssig0 (x : Nat) : Nat := rotr 7 x ^^^ rotr 18 x ^^^ x / 8

/-- SHA-256 message-schedule function σ1. -/
def ssig1 (x : Nat) : Nat := rotr 17 x ^^^ rotr 19 x ^^^ x / 1024

/-- SHA-256 compression function Σ0. -/
def bsig0 (x : Nat) : Nat := rotr 2 x ^^^ rotr 13 x ^^^ rotr 22 x

/-- SHA-256 compression function Σ1. -/
def bsig1 (x : Nat) : Nat := rotr 6 x ^^^ rotr 11 x ^^^ rotr 25 x

/-- SHA-256 choice function. -/
def ch_fn (x y z : Nat) : Nat := (x &&& y) ^^^ ((x ^^^ 4294967295) &&& z)

/-- SHA-256 majority function. -/
def maj_fn (x y z : Nat) : Nat := (x &&& y) ^^^ (x &&& z) ^^^ (y &&& z)

/-- The 64 SHA-256 round constants (decimal). -/
def sha256_k : List Nat :=
  [1116352408, 1899447441, 3049323471, 3921009573, 961987163, 1508970993,
   2453635748, 2870763221, 3624381080, 310598401, 607225278, 1426881987,
   1925078388, 2162078206, 2614888103, 3248222580, 3835390401, 4022224774,
   264347078, 604807628, 770255983, 1249150122, 1555081692, 1996064986,
   2554220882, 2821834349, 2952996808, 3210313671, 3336571891, 3584528711,
   113926993, 338241895, 666307205, 773529912, 1294757372, 1396182291,
   1695183700, 1986661051, 2177026350, 2456956037, 2730485921, 2820302411,
   3259730800, 3345764771, 3516065817, 3600352804, 4094571909, 275423344,
   430227734, 506948616, 659060556, 883997877, 958139571, 1322822218,
   1537002063, 1747873779, 1955562222, 2024104815, 2227730452, 2361852424,
   2428436474, 2756734187, 3204031479, 3329325298]

/-- The SHA-256 initial hash state (decimal). -/
def sha256_h0 : List Nat :=
  [1779033703, 3144134277, 1013904242, 2773480762,
   1359893119, 2600822924, 528734635, 1541459225]

/-- Extension of the 16-word message schedule by `k` further words. -/
def sha256_extend : Nat → List Nat → List Nat
  | 0, w => w
  | k + 1, w =>
      sha256_extend k (w ++ [w32 (w.getD (w.length - 16) 0 +
        ssig0 (w.getD (w.length - 15) 0) + w.getD (w.length - 7) 0 +
        ssig1 (w.getD (w.length - 2) 0))])

/-- One SHA-256 round on the 8-word working state, fed one `(k, w)` pair. -/
def sha256_round (st : List Nat) (kw : Nat × Nat) : List Nat :=
  match st with
  | [a, b, c, d, e, f, g, h] =>
      [w32 (w32 (h + bsig1 e + ch_fn e f g + kw.1 + kw.2) +
        w32 (bsig0 a + maj_fn a b c)), a, b, c,
       w32 (d + w32 (h + bsig1 e + ch_fn e f g + kw.1 + kw.2)), e, f, g]
  | other => other

/-- SHA-256 compression of one 64-byte block into the hash state. -/
def sha256_compress (h : List Nat) (block : List Nat) : List Nat :=
  List.zipWith (fun x y => w32 (x + y)) h
    ((sha256_k.zip (sha256_extend 48 (chunk_words block))).foldl sha256_round h)

/-- SHA-256 over a padded message, block by block. -/
def sha256_blocks (h : List Nat) : List Nat → List Nat
  | [] => h
  | b :: rest =>
      sha256_blocks (sha256_compress h (List.take 64 (b :: rest))) (rest.drop 63)
termination_by l => l.length
decreasing_by simp [List.length_drop]; omega

/-- The eight lowercase hex digits of a 32-bit word. -/
def word_hex (v : Nat) : List Char :=
  [hex_digit (v / 268435456 % 16), hex_digit (v / 16777216 % 16),
   hex_digit (v / 1048576 % 16), hex_digit (v / 65536 % 16),
   hex_digit (v / 4096 % 16), hex_digit (v / 256 % 16),
   hex_digit (v / 16 % 16), hex_digit (v % 16)]

/-- `hashlib.sha256(data).hexdigest()`. -/
def sha256_hexdigest (msg : List Nat) : String :=
  String.mk ((sha256_blocks sha256_h0 (sha256_pad msg)).foldr
    (fun v acc => word_hex v ++ acc) [])

/-- Python `str` of a non-negative integer primary key. -/
def nat_str (n : Nat) : String := String.mk (nat_to_chars n)

/-- `SignatureService._create_mock_signature`: SHA-256 hexdigest of
`f"{payload_json}:{signer.pk}"` (the resulting `bytes` kept as a string). -/
def create_mock_signature (payload_json : String) (signer_pk : Nat) : String :=
  sha256_hexdigest (utf8_encode (payload_json ++ ":" ++ nat_str signer_pk))

/-- `SignatureService._get_key_fingerprint`: first 40 hex digits of the
SHA-256 of `f"{user.pk}:{method}:{user.email}"`. -/
def get_key_fingerprint (user_pk : Nat) (user_email method : String) : String :=
  String.mk ((sha256_hexdigest (utf8_encode
    (nat_str user_pk ++ ":" ++ method ++ ":" ++ user_email))).toList.take 40)

/-- A document tab of a package: `identifier`, `display_name`, `order` and
the optional current document's `(version, sha256_hash)`. -/
structure DocTab where
  order : Nat
  identifier : String
  display_name : String
  current_document : Option (Nat × String)
deriving DecidableEq

/-- The package fields the signature service reads. -/
structure SigPackage where
  pk : Nat
  reference_number : String
  title : String
  tabs : List DocTab
deriving DecidableEq

/-- The user fields the signature service reads. -/
structure Signer where
  pk : Nat
  email : String
  first_name : String
  last_name : String
deriving DecidableEq

/-- The `StageAction` fields the signature service reads;
`has_signature` models `hasattr(stage_action, "signature")`. -/
structure SigStageAction where
  pk : Nat
  package : SigPackage
  node_id : String
  action_type : String
  has_signature : Bool
deriving DecidableEq

/-- A `Signature` row as `create_signature` builds it (`verified_at`
becomes a Bool flag). -/
structure Signature where
  stage_action_pk : Nat
  signer_pk : Nat
  signer_name : String
  signer_email : String
  signer_office : Nat
  signer_position : String
  signature_type : String
  method : String
  key_fingerprint : String
  canonical_payload : String
  signature_blob : String
  verified_at : Bool
  verification_status : String
deriving DecidableEq

/-- Stable insertion into a tab list sorted by `order`. -/
def insert_tab (t : DocTab) : List DocTab → List DocTab
  | [] => [t]
  | t2 :: rest =>
      if t.order ≤ t2.order then t :: t2 :: rest else t2 :: insert_tab t rest

/-- `package.tabs.all().order_by("order")`. -/
def sort_tabs : List DocTab → List DocTab
  | [] => []
  | t :: rest => insert_tab t (sort_tabs rest)

/-- The per-tab document-hash dict, skipped when no current document. -/
def doc_hash_entry (t : DocTab) : Option JValue :=
  match t.current_document with
  | none => none
  | some (ver, hash) => some (JValue.jobj
      (JMembers.cons "tab_identifier" (JValue.jstr t.identifier)
        (JMembers.cons "tab_name" (JValue.jstr t.display_name)
          (JMembers.cons "document_version" (JValue.jint ver)
            (JMembers.cons "sha256_hash" (JValue.jstr hash) JMembers.nil)))))

/-- A JSON array value from a list of values. -/
def jitems_of_list : List JValue → JItems
  | [] => JItems.nil
  | v :: rest => JItems.cons v (jitems_of_list rest)

/-- A JSON object value from an association list. -/
def jmembers_of_list : List (String × JValue) → JMembers
  | [] => JMembers.nil
  | (k, v) :: rest => JMembers.cons k v (jmembers_of_list rest)

/-- `SignatureService.create_canonical_payload` (the dict in the source's
insertion order; `payload_to_json` sorts the keys). -/
def create_canonical_payload (package : SigPackage)
    (stage_action : SigStageAction) (signer : Signer)
    (signature_type position now : String) : JValue :=
  JValue.jobj (jmembers_of_list
    [("package_id", JValue.jstr (nat_str package.pk)),
     ("package_reference", JValue.jstr package.reference_number),
     ("package_title", JValue.jstr package.title),
     ("stage_action_id", JValue.jstr (nat_str stage_action.pk)),
     ("node_id", JValue.jstr stage_action.node_id),
     ("action_type", JValue.jstr stage_action.action_type),
     ("signer_id", JValue.jstr (nat_str signer.pk)),
     ("signer_email", JValue.jstr signer.email),
     ("signer_name", JValue.jstr
       (py_strip (signer.first_name ++ " " ++ signer.last_name))),
     ("signer_position", JValue.jstr position),
     ("signature_type", JValue.jstr signature_type),
     ("timestamp", JValue.jstr now),
     ("documents", JValue.jarr (jitems_of_list
       ((sort_tabs package.tabs).filterMap doc_hash_entry)))])

/-- `Signature.SignatureType.choices` first components. -/
def valid_signature_types : List String :=
  ["CONCUR", "APPROVE", "CERTIFY", "ACKNOWLEDGE"]

/-- `Signature.Method.choices` first components. -/
def valid_methods : List String := ["x509", "pgp"]

/-- `SignatureService.verify_signature`: the MVP always returns `True`,
whatever the stored blob and payload hold. -/
def verify_signature (_signature : Signature) : Bool := true

/-- `SignatureService.create_signature`. -/
def create_signature (stage_action : SigStageAction) (signer : Signer)
    (office : Nat) (signature_type position method now : String) :
    Except String Signature :=
  if signature_type ∉ valid_signature_types then
    Except.error ("Invalid signature type: " ++ signature_type)
  else if method ∉ valid_methods then
    Except.error ("Invalid signature method: " ++ method)
  else if stage_action.has_signature then
    Except.error "Stage action already has a signature"
  else
    let payload := create_canonical_payload stage_action.package stage_action
      signer signature_type position now
    let payload_json := payload_to_json payload
    Except.ok
      { stage_action_pk := stage_action.pk
        signer_pk := signer.pk
        signer_name :=
          if py_strip (signer.first_name ++ " " ++ signer.last_name) = ""
          then signer.email
          else py_strip (signer.first_name ++ " " ++ signer.last_name)
        signer_email := signer.email
        signer_office := office
        signer_position := position
        signature_type := signature_type
        method := method
        key_fingerprint := get_key_fingerprint signer.pk signer.email method
        canonical_payload := payload_json
        signature_blob := create_mock_signature payload_json signer.pk
        verified_at := true
        verification_status := "valid" }

end Papertrail

namespace Papertrail

/-- Fixture tab with a current document. -/
def tabW : DocTab := ⟨1, "tab_a", "Tab A", some (2, "ab12")⟩

/-- Fixture tab with no current document (skipped by the payload builder). -/
def tabW2 : DocTab := ⟨0, "tab_b", "Tab B", none⟩

/-- Fixture package for the signature service. -/
def pkgW : SigPackage := ⟨7, "PKG-001", "Test Package", [tabW, tabW2]⟩

/-- Fixture signer. -/
def signerW : Signer := ⟨3, "alice@example.com", "Alice", "Smith"⟩

/-- Fixture stage action without a signature. -/
def saW : SigStageAction := ⟨11, pkgW, "node-1", "complete", false⟩

/-- Fixture stage action that already has a signature. -/
def saDupW : SigStageAction := ⟨12, pkgW, "node-1", "complete", true⟩

/-- Fixture timestamp. -/
def nowW : String := "2024-01-01T00:00:00+00:00"

/-- C7 counterexample: `verify_signature` does not compare the stored blob
with the artifact recomputed from the stored `canonical_payload` and signer —
a `Signature` whose `signature_blob` differs from
`create_mock_signature canonical_payload signer_pk` still verifies as true,
refuting "returns true only if the stored signature blob equals the artifact
recomputed". -/
theorem verify_signature_counterexample :
    ∃ sig : Signature,
      sig.signature_blob ≠
        create_mock_signature sig.canonical_payload sig.signer_pk ∧
      verify_signature sig = true := by
  refine ⟨{ stage_action_pk := 1
            signer_pk := 1
            signer_name := "A B"
            signer_email := "a@example.com"
            signer_office := 1
            signer_position := "Analyst"
            signature_type := "APPROVE"
            method := "pgp"
            key_fingerprint := get_key_fingerprint 1 "a@example.com" "pgp"
            canonical_payload := "p"
            signature_blob := create_mock_signature "p" 1 ++ "x"
            verified_at := true
            verification_status := "valid" }, ?_, rfl⟩
  show create_mock_signature "p" 1 ++ "x" ≠ create_mock_signature "p" 1
  intro h
  have hl := congrArg String.length h
  rw [String.length_append] at hl
  have hx : ("x" : String).length = 1 := rfl
  omega

/-- C7 (amended): `verify_signature` is the MVP stub — it returns `true` for
every signature unconditionally, performing no recomputation or comparison at
all. -/
theorem verify_signature_spec (sig : Signature) :
    verify_signature sig = true := rfl

/-- C8: `create_signature` rejects a signature type outside the recognized
`SignatureType` choices ("Invalid signature type: ..."), then a method
outside the recognized `Method` choices ("Invalid signature method: ..."),
then a stage action that already has a signature ("Stage action already has
a signature"); when all three checks pass it returns a `Signature`, and
`verify_signature` on that fresh signature returns true. -/
theorem create_signature_spec (sa : SigStageAction) (signer : Signer)
    (office : Nat) (st pos mth now : String) :
    (st ∉ valid_signature_types →
      create_signature sa signer office st pos mth now =
        Except.error ("Invalid signature type: " ++ st)) ∧
    (st ∈ valid_signature_types → mth ∉ valid_methods →
      create_signature sa signer office st pos mth now =
        Except.error ("Invalid signature method: " ++ mth)) ∧
    (st ∈ valid_signature_types → mth ∈ valid_methods →
      sa.has_signature = true →
      create_signature sa signer office st pos mth now =
        Except.error "Stage action already has a signature") ∧
    (st ∈ valid_signature_types → mth ∈ valid_methods →
      sa.has_signature = false →
      ∃ sig, create_signature sa signer office st pos mth now =
        Except.ok sig ∧ verify_signature sig = true) := by
  refine ⟨fun h1 => ?_, fun h1 h2 => ?_, fun h1 h2 h3 => ?_,
    fun h1 h2 h3 => ?_⟩
  · rw [create_signature, if_pos h1]
  · rw [create_signature, if_neg (not_not_intro h1), if_pos h2]
  · rw [create_signature, if_neg (not_not_intro h1),
      if_neg (not_not_intro h2), if_pos h3]
  · rw [create_signature, if_neg (not_not_intro h1),
      if_neg (not_not_intro h2), if_neg (by rw [h3]; exact Bool.false_ne_true)]
    exact ⟨_, rfl, rfl⟩

/-- C8 witness: the three rejections and the success case at concrete
fixtures. -/
theorem create_signature_witness :
    create_signature saW signerW 1 "FROB" "Analyst" "pgp" nowW =
      Except.error ("Invalid signature type: " ++ "FROB") ∧
    create_signature saW signerW 1 "APPROVE" "Analyst" "rsa" nowW =
      Except.error ("Invalid signature method: " ++ "rsa") ∧
    create_signature saDupW signerW 1 "APPROVE" "Analyst" "pgp" nowW =
      Except.error "Stage action already has a signature" ∧
    (∃ sig, create_signature saW signerW 1 "APPROVE" "Analyst" "pgp" nowW =
      Except.ok sig ∧ verify_signature sig = true) :=
  ⟨(create_signature_spec saW signerW 1 "FROB" "Analyst" "pgp" nowW).1
      (by decide),
   (create_signature_spec saW signerW 1 "APPROVE" "Analyst" "rsa" nowW).2.1
      (by decide) (by decide),
   (create_signature_spec saDupW signerW 1 "APPROVE" "Analyst" "pgp" nowW).2.2.1
      (by decide) (by decide) rfl,
   (create_signature_spec saW signerW 1 "APPROVE" "Analyst" "pgp" nowW).2.2.2
      (by decide) (by decide) rfl⟩

end Papertrail
